import Mathlib

/-!
Shallow embedding of the tariff-lookup and household-eligibility rules engine
implemented in `src/data_processor_gui.py` of the repository
PROYECTO-DE-PLANILLAS, together with theorems settling the specification
claims about it.

Modelling conventions:
* Python numbers are modelled by `ℚ` (the code only parses decimal literals,
  compares them and copies them around, so rationals are exact for every
  operation performed).
* A spreadsheet cell is a `PyVal`: missing/NaN, a string, a number or a bool.
* A pandas DataFrame is a `DF`: the list of its column labels plus, for each
  row, the cells of the columns the engine reads or writes (one field per
  logical column; the label list decides presence).
* Per-household loops write only to rows of their own household and read only
  columns that are never written, so they are modelled row-parallel: every
  row is mapped to its final value computed from the (unchanged) input rows
  of its household.  Group iteration order (pandas sorts group keys) is
  therefore immaterial.
-/

namespace Planillas

/-- A Python / pandas cell value: NaN (or None), a string, a number, a bool. -/
inductive PyVal where
  | none
  | str (s : String)
  | num (q : ℚ)
  | bool (b : Bool)
deriving DecidableEq

/-- Python `str()` applied to a cell, as far as the engine exercises it:
`str(nan) = "nan"`, strings unchanged, booleans `"True"/"False"`.  Integral
numbers render as their integer literal; non-integral numbers are rendered
as a fraction (a deviation from Python's float repr that no claim exercises:
`str` is only ever applied to plan / policy / kinship / status cells). -/
def pyStr : PyVal → String
  | PyVal.none => "nan"
  | PyVal.str s => s
  | PyVal.num q => if q.den = 1 then toString q.num else toString q.num ++ "/" ++ toString q.den
  | PyVal.bool b => if b then "True" else "False"

/-- Python `str.lower()` restricted to the alphabet the program uses:
ASCII letters plus the accented Spanish uppercase letters.  Other characters
are left unchanged. -/
def pyLowerChar (c : Char) : Char :=
  if 'A' ≤ c ∧ c ≤ 'Z' then Char.ofNat (c.toNat + 32)
  else if c = 'Á' then 'á'
  else if c = 'É' then 'é'
  else if c = 'Í' then 'í'
  else if c = 'Ó' then 'ó'
  else if c = 'Ú' then 'ú'
  else if c = 'Ñ' then 'ñ'
  else if c = 'Ü' then 'ü'
  else c

/-- `str.lower()` on a whole string. -/
def pyLower (s : String) : String := ⟨s.data.map pyLowerChar⟩

/-- `str.casefold()`; for the alphabet used by the program it agrees with
`str.lower()`. -/
def pyCasefold (s : String) : String := pyLower s

/-- Python `str.strip()` (whitespace on both ends removed). -/
def pyStrip (s : String) : String :=
  ⟨((s.data.dropWhile Char.isWhitespace).reverse.dropWhile Char.isWhitespace).reverse⟩

/-- Delete every occurrence of a character (models `str.replace(c, "")`). -/
def delChar (c : Char) (s : String) : String := ⟨s.data.filter (fun d => d ≠ c)⟩

/-- Replace every occurrence of one character by another
(models `str.replace(a, b)` for one-character arguments). -/
def mapChar (a b : Char) (s : String) : String :=
  ⟨s.data.map (fun d => if d = a then b else d)⟩

/-- Whether a character occurs in a string (Python `c in s`). -/
def hasChar (c : Char) (s : String) : Bool := s.data.any (fun d => d = c)

/-- Contiguous-sublist test on character lists. -/
def listContainsSub (needle : List Char) : List Char → Bool
  | [] => needle.isEmpty
  | c :: t => needle.isPrefixOf (c :: t) || listContainsSub needle t

/-- Python substring test `needle in hay`. -/
def containsSub (needle hay : String) : Bool := listContainsSub needle.data hay.data

/-- Numeric value of a list of decimal digit characters. -/
def digitsNat (l : List Char) : ℕ := l.foldl (fun a c => 10 * a + (c.toNat - 48)) 0

/-- Python `float(s)` on a plain decimal literal with optional sign and
optional exponent.  (`inf`/`nan` spellings and `_` digit separators, which
Python also accepts, never occur in this pipeline and are not modelled.) -/
def pyFloat? (s : String) : Option ℚ :=
  let l := s.data
  let sign : ℚ × List Char :=
    match l with
    | '+' :: t => (1, t)
    | '-' :: t => (-1, t)
    | _ => (1, l)
  let ip := sign.2.takeWhile Char.isDigit
  let l2 := sign.2.dropWhile Char.isDigit
  let frac : List Char × List Char :=
    match l2 with
    | '.' :: t => (t.takeWhile Char.isDigit, t.dropWhile Char.isDigit)
    | _ => ([], l2)
  if ip.isEmpty ∧ frac.1.isEmpty then Option.none
  else
    let mant : ℚ := (digitsNat ip : ℚ) + (digitsNat frac.1 : ℚ) / ((10 : ℚ) ^ frac.1.length)
    match frac.2 with
    | [] => some (sign.1 * mant)
    | e :: t =>
      if e = 'e' ∨ e = 'E' then
        let esign : ℤ × List Char :=
          match t with
          | '+' :: r => (1, r)
          | '-' :: r => (-1, r)
          | _ => (1, t)
        let ed := esign.2.takeWhile Char.isDigit
        let rest := esign.2.dropWhile Char.isDigit
        if ed.isEmpty ∨ ¬ rest.isEmpty then Option.none
        else some (sign.1 * mant * (10 : ℚ) ^ (esign.1 * (digitsNat ed : ℤ)))
      else Option.none

/-- `_parse_numeric` from `data_processor_gui.py`: tolerant conversion of a
cell to a number.  `None`/NaN gives `none`; numbers (and booleans, which are
`int` instances in Python) pass through; strings are stripped, inner spaces
removed, and a list of reinterpretation candidates is tried in order. -/
def parse_numeric (v : PyVal) : Option ℚ :=
  match v with
  | PyVal.none => Option.none
  | PyVal.num q => some q
  | PyVal.bool b => some (if b then 1 else 0)
  | PyVal.str s =>
    let text := pyStrip s
    if text = "" then Option.none
    else
      let text := delChar ' ' text
      let candidates : List String :=
        [text]
        ++ (if hasChar ',' text ∧ hasChar '.' text then
              [mapChar ',' '.' (delChar '.' text)] else [])
        ++ (if hasChar ',' text then [mapChar ',' '.' text] else [])
        ++ (if text.data.count '.' > 1 then [delChar '.' text] else [])
      candidates.findSome? pyFloat?

/-- One row of the record table: the cells of the columns the engine reads
or writes.  A field is meaningful only when the corresponding column label is
present in the table's `cols` list (the functions below gate every access on
that, exactly as the source resolves labels before reading). -/
structure Row where
  titular : PyVal
  estado : PyVal
  parentesco : PyVal
  grupo : PyVal
  tipoPoliza : PyVal
  plan : PyVal
  edad : PyVal
  elegible : PyVal
  transicionEC : PyVal
  primaNeta : PyVal
  aplica : PyVal
  motivo : PyVal
  transicionSC : PyVal
  porcentaje : PyVal
deriving DecidableEq

/-- The all-missing row, used as an out-of-range default. -/
def nilRow : Row :=
  ⟨PyVal.none, PyVal.none, PyVal.none, PyVal.none, PyVal.none, PyVal.none, PyVal.none,
   PyVal.none, PyVal.none, PyVal.none, PyVal.none, PyVal.none, PyVal.none, PyVal.none⟩

/-- A pandas DataFrame: ordered column labels plus the rows. -/
structure DF where
  cols : List String
  rows : List Row
deriving DecidableEq

/-! ### Tariff table (`asignar_prima_neta`) -/

/-- Raw tariff configuration: each entry maps a range key `"min,max"` to a
plan→value dictionary (`Option.none` models a value that is not a dict and is
skipped by the `isinstance` check). -/
abbrev TarifasCfg : Type := List (String × Option (List (String × PyVal)))

/-- Insert into a string-keyed dictionary with Python `dict` semantics:
an existing key keeps its position and gets the new value. -/
def dictInsert (d : List (String × ℚ)) (k : String) (v : ℚ) : List (String × ℚ) :=
  if d.any (fun p => p.1 = k) then d.map (fun p => if p.1 = k then (k, v) else p)
  else d ++ [(k, v)]

/-- Dictionary lookup (`dict.get`). -/
def dictGet (d : List (String × ℚ)) (k : String) : Option ℚ :=
  (d.find? (fun p => p.1 = k)).map (fun p => p.2)

/-- Parse one configured tariff entry, as `asignar_prima_neta` does at load
time: reject non-dict values, split the range key on `','`, strip and parse
both bounds, strip/casefold plan names, parse plan values; drop the entry if
a bound is unparseable, the key does not split in two, or no plan survives. -/
def parseTarifaEntry (e : String × Option (List (String × PyVal))) :
    Option (ℚ × ℚ × List (String × ℚ)) :=
  match e.2 with
  | Option.none => Option.none
  | some valores =>
    let limites := (e.1.split (fun c => c = ',')).map pyStrip
    if limites.length = 2 then
      match parse_numeric (PyVal.str (limites.getD 0 "")),
            parse_numeric (PyVal.str (limites.getD 1 "")) with
      | some mn, some mx =>
        let planes := valores.foldl
          (fun acc kv =>
            let nombre := pyStrip kv.1
            if nombre = "" then acc
            else
              match parse_numeric kv.2 with
              | Option.none => acc
              | some q => dictInsert acc (pyCasefold nombre) q)
          []
        if planes.isEmpty then Option.none else some (mn, mx, planes)
      | _, _ => Option.none
    else Option.none

/-- The per-row scan of `asignar_prima_neta`: walk the parsed ranges in table
order; on the first range whose inclusive bounds contain the age, look the
(casefolded) plan up in its price map and stop if found, otherwise keep
scanning. -/
def buscarPrima (parsed : List (ℚ × ℚ × List (String × ℚ))) (edad : ℚ) (planKey : String) :
    Option ℚ :=
  match parsed with
  | [] => Option.none
  | (mn, mx, planes) :: rest =>
    if mn ≤ edad ∧ edad ≤ mx then
      match dictGet planes planKey with
      | some p => some p
      | Option.none => buscarPrima rest edad planKey
    else buscarPrima rest edad planKey

/-- First column label whose stripped, lowercased form is `"plan"`. -/
def findPlanCol (cols : List String) : Option String :=
  cols.find? (fun c => pyLower (pyStrip c) = "plan")

/-- First column label whose stripped, lowercased form is `"edad"`. -/
def findEdadCol (cols : List String) : Option String :=
  cols.find? (fun c => pyLower (pyStrip c) = "edad")

/-- The plan string the premium loop extracts from a row: `""` for NaN,
otherwise `str(cell).strip()`. -/
def rowPlanStr (r : Row) : String :=
  if r.plan = PyVal.none then "" else pyStrip (pyStr r.plan)

/-- The per-row body of `asignar_prima_neta`'s loop: an empty plan or an
unparseable age writes 0; otherwise the scanned price, or 0 when the scan
finds none. -/
def primaRowUpdate (parsed : List (ℚ × ℚ × List (String × ℚ))) (r : Row) : Row :=
  let plan := rowPlanStr r
  if plan = "" then { r with primaNeta := PyVal.num 0 }
  else
    match parse_numeric r.edad with
    | Option.none => { r with primaNeta := PyVal.num 0 }
    | some e =>
      match buscarPrima parsed e (pyCasefold plan) with
      | some p => { r with primaNeta := PyVal.num p }
      | Option.none => { r with primaNeta := PyVal.num 0 }

/-- `asignar_prima_neta` from `data_processor_gui.py`: short-circuit on an
empty table, empty configuration, missing plan/age column or fully-malformed
configuration; otherwise create the `"Prima Neta"` column when absent and
assign every row's premium. -/
def asignar_prima_neta (tarifas : TarifasCfg) (df : DF) : DF :=
  if df.rows.isEmpty then df
  else if tarifas.isEmpty then df
  else
    match findPlanCol df.cols, findEdadCol df.cols with
    | some _, some _ =>
      let parsed := tarifas.filterMap parseTarifaEntry
      if parsed.isEmpty then df
      else
        let cols := if df.cols.contains "Prima Neta" then df.cols else df.cols ++ ["Prima Neta"]
        { cols := cols, rows := df.rows.map (primaRowUpdate parsed) }
    | _, _ => df

/-! ### Eligibility policy (`filtrar_beneficiarios`) -/

/-- `normalize_column_name` from the source: strip, casefold, spaces to
underscores. -/
def normalize_column_name (name : String) : String :=
  mapChar ' ' '_' (pyCasefold (pyStrip name))

/-- Resolve a required column: the first label whose normalized form equals
the target (the source keeps only the first match per target). -/
def resolveColNorm (cols : List String) (target : String) : Option String :=
  cols.find? (fun c => normalize_column_name c = target)

/-- `fillna(False)` on one eligibility cell. -/
def fillElegible (v : PyVal) : PyVal := if v = PyVal.none then PyVal.bool false else v

/-- `fillna("")` on one transition cell. -/
def fillTransicion (v : PyVal) : PyVal := if v = PyVal.none then PyVal.str "" else v

/-- Append the two flag columns when absent (the `df.empty` branch of
`filtrar_beneficiarios`, which only creates the columns). -/
def addMissingFlagCols (cols : List String) : List String :=
  let c1 := if cols.contains "Elegible_Beneficio" then cols else cols ++ ["Elegible_Beneficio"]
  if c1.contains "Transicion_Estado_Civil" then c1 else c1 ++ ["Transicion_Estado_Civil"]

/-- Ensure the eligibility flag column exists and holds no NaN: a missing
column is created filled with `False`, an existing one is `fillna(False)`-ed. -/
def ensureElegCol (df : DF) : DF :=
  if df.cols.contains "Elegible_Beneficio" then
    { df with rows := df.rows.map (fun r => { r with elegible := fillElegible r.elegible }) }
  else
    { cols := df.cols ++ ["Elegible_Beneficio"],
      rows := df.rows.map (fun r => { r with elegible := PyVal.bool false }) }

/-- Ensure the transition column exists and holds no NaN. -/
def ensureTransCol (df : DF) : DF :=
  if df.cols.contains "Transicion_Estado_Civil" then
    { df with rows := df.rows.map (fun r => { r with transicionEC := fillTransicion r.transicionEC }) }
  else
    { cols := df.cols ++ ["Transicion_Estado_Civil"],
      rows := df.rows.map (fun r => { r with transicionEC := PyVal.str "" }) }

/-- Ensure both flag columns exist and hold no NaN, in source order. -/
def ensureFlagCols (df : DF) : DF := ensureTransCol (ensureElegCol df)

/-- Indices of the rows of one household: the positions whose household-key
cell equals the given key, in original row order.  (pandas `groupby` drops
NaN keys; callers only use this with a non-NaN key.) -/
def grpIdxs (rows : List Row) (key : PyVal) : List ℕ :=
  (List.range rows.length).filter (fun j => (rows.getD j nilRow).titular = key)

/-- The household's marital-status text: taken from the group's first row,
`""` for NaN, otherwise `str(cell).strip().lower()`. -/
def estadoOfGroup (rows : List Row) (idxs : List ℕ) : String :=
  match idxs with
  | [] => ""
  | i :: _ =>
    let v := (rows.getD i nilRow).estado
    if v = PyVal.none then "" else pyLower (pyStrip (pyStr v))

/-- The marriage/cohabitation marker test of the source:
`"casado" in estado or "compañero" in estado`. -/
def maritalMarker (estado : String) : Bool :=
  containsSub "casado" estado || containsSub "compañero" estado

/-- Valid-kinship (and married-priority) list for the married regime. -/
def validosCasado : List String := ["Cónyuge", "Compañero(a)", "Hijo", "Hija"]

/-- Valid-kinship (and single-priority) list for the single regime. -/
def validosSoltero : List String := ["Padre", "Madre", "Hijo", "Hija"]

/-- Whether a cell is (exactly) one of the given literal strings — pandas
`isin` over a list of strings: only an equal string cell matches. -/
def cellIn (v : PyVal) (l : List String) : Bool :=
  match v with
  | PyVal.str s => l.contains s
  | _ => false

/-- `prioridad.index(p) if p in prioridad else 99` on a raw cell. -/
def prioIdxOf (prioridad : List String) (v : PyVal) : ℕ :=
  match v with
  | PyVal.str s => ((prioridad.findIdx? (fun p => p = s)).getD 99)
  | _ => 99

/-- Stable insertion of an index into a key-sorted index list: the inserted
(earlier) index goes before later indices of equal key. -/
def insertByKey (key : ℕ → ℕ) (i : ℕ) : List ℕ → List ℕ
  | [] => [i]
  | j :: t => if key i ≤ key j then i :: j :: t else j :: insertByKey key i t

/-- Stable sort of an index list by key ascending (pandas `sort_values` on
the priority column; ties keep original row order). -/
def sortByKey (key : ℕ → ℕ) : List ℕ → List ℕ
  | [] => []
  | i :: t => insertByKey key i (sortByKey key t)

/-- The rank-and-cap step of `filtrar_beneficiarios`: the group members whose
kinship is in the regime's valid list; if more than 3, sort by the priority
list — chosen by `"casado" in estado` alone — and keep the first 3. -/
def capBeneficiarios (rows : List Row) (idxs : List ℕ) (estado : String) : List ℕ :=
  let validos := if maritalMarker estado then validosCasado else validosSoltero
  let benef := idxs.filter (fun i => cellIn (rows.getD i nilRow).parentesco validos)
  if benef.length > 3 then
    let prioridad := if containsSub "casado" estado then validosCasado else validosSoltero
    (sortByKey (fun i => prioIdxOf prioridad (rows.getD i nilRow).parentesco) benef).take 3
  else benef

/-- Whether some group member's kinship cell is exactly `"Padre"` or
`"Madre"` (`isin(["Padre", "Madre"]).any()`). -/
def tienePadres (rows : List Row) (idxs : List ℕ) : Bool :=
  idxs.any (fun j => cellIn (rows.getD j nilRow).parentesco ["Padre", "Madre"])

/-- The transition cell the policy leaves on each row of the household with
indices `idxs`: written when the household's marital text carries a marriage
marker and some member's kinship is exactly Father/Mother, otherwise the
`fillna`-ed input value. -/
def filtrarTransVal (rows : List Row) (idxs : List ℕ) (v : PyVal) : PyVal :=
  if maritalMarker (estadoOfGroup rows idxs) ∧ tienePadres rows idxs then
    PyVal.str "Soltero→Casado"
  else fillTransicion v

/-- The eligibility cell the policy leaves on row `i` (kinship cell `p`,
input flag `v`) of the household `idxs`: forced false for an excluded
kinship (married regime), true for a ranked-and-capped beneficiary,
otherwise the `fillna`-ed input value.  The source writes true first and
false after; as the two index sets are computed from disjoint kinship
lists, checking exclusion first is the same assignment. -/
def filtrarElegVal (rows : List Row) (idxs : List ℕ) (i : ℕ) (p v : PyVal) : PyVal :=
  let estado := estadoOfGroup rows idxs
  let excluidos : List String := if maritalMarker estado then ["Padre", "Madre"] else []
  if cellIn p excluidos then PyVal.bool false
  else if (capBeneficiarios rows idxs estado).contains i then PyVal.bool true
  else fillElegible v

/-- Final value of one row under the eligibility policy.  The source's
per-household loop writes only the transition/eligibility cells of its own
household and reads only the (never-written) key, status and kinship
columns, so it is modelled row-parallel: the row's household is recomputed
from the input rows and the row receives the value the loop would leave.
A NaN-keyed row is in no `groupby` group and only gets the `fillna`. -/
def filtrarRowUpdate (rows : List Row) (i : ℕ) (r : Row) : Row :=
  if r.titular = PyVal.none then
    { r with elegible := fillElegible r.elegible,
             transicionEC := fillTransicion r.transicionEC }
  else
    { r with elegible := filtrarElegVal rows (grpIdxs rows r.titular) i r.parentesco r.elegible,
             transicionEC := filtrarTransVal rows (grpIdxs rows r.titular) r.transicionEC }

/-- `filtrar_beneficiarios` from `data_processor_gui.py`.  On an empty table
it only creates the missing flag columns; otherwise it defaults/fills the
flag columns, resolves the three required columns by normalized name and, if
any is absent, stops there (the no-op of the spec); otherwise every
household is processed as in `filtrarRowUpdate`. -/
def filtrar_beneficiarios (df : DF) : DF :=
  if df.rows.isEmpty then { df with cols := addMissingFlagCols df.cols }
  else
    let wdf := ensureFlagCols df
    match resolveColNorm df.cols "identificacion_titular",
          resolveColNorm df.cols "estado_civil",
          resolveColNorm df.cols "parentesco" with
    | some _, some _, some _ =>
      let newRows := (List.range df.rows.length).map
        (fun i => filtrarRowUpdate df.rows i (df.rows.getD i nilRow))
      { wdf with rows := newRows }
    | _, _, _ => wdf

/-! ### Benefit valuation (`aplicar_politica_beneficios`)

The valuation loop is modelled like the eligibility loop (row-parallel per
household, groups being disjoint), with one addition: every write to the
reason column `Motivo_No_Beneficio` is also recorded as an event `(row
index, text)`, in execution order, so that theorems can speak about how
often a record's reason is assigned.  The final reason of a row is the text
of the last event at that row; the loop's own reads of the reason cell are
resolved against the same event list. -/

/-- The four output columns of the valuation stage, in assignment order. -/
def benefColNames : List String :=
  ["Aplica_Beneficio", "Motivo_No_Beneficio", "Transicion_Soltero_Casado", "Porcentaje_Beneficio"]

/-- Append the valuation output columns that are missing. -/
def addMissingBenefCols (cols : List String) : List String :=
  benefColNames.foldl (fun acc c => if acc.contains c then acc else acc ++ [c]) cols

/-- The unconditional column defaults the stage writes before grouping. -/
def benefDefaults (r : Row) : Row :=
  { r with aplica := PyVal.bool false, motivo := PyVal.str "",
           transicionSC := PyVal.bool false, porcentaje := PyVal.num 0 }

/-- The hard-coded benefit value table, already keyed the way the source
builds `valores_dict`: `(str(tipo).strip().lower(), str(plan).strip())`. -/
def valoresDict : List ((String × String) × ℚ) :=
  [ (("salud sura clasica", "266"), 89000),
    (("salud sura clasica", "267"), 89000),
    (("sura evoluciona", "817"), 71000),
    (("salud sura global", "307"), 89000),
    (("salud para todos", "13"), 57000),
    (("salud para todos", "11"), 57000),
    (("salud para todos", "12"), 57000) ]

/-- `valores_dict.get((tipo, plan), 0)`. -/
def valorBeneficio (tipo plan : String) : ℚ :=
  (((valoresDict.find? (fun e => e.1 = (tipo, plan))).map (fun e => e.2)).getD 0)

/-- Over-cap reason text. -/
def msgExcede (modo : String) : String :=
  "💔 Excede el máximo de 3 beneficiarios del grupo \x27" ++ modo ++ "\x27."

/-- Applies reason text. -/
def msgAplica (modo plan : String) : String :=
  "✅ Aplica según grupo \x27" ++ modo ++ "\x27 y plan " ++ plan ++ "."

/-- No-configured-value reason text. -/
def msgSinValor : String :=
  "⚠️ No existe valor configurado en la tabla de beneficios para este plan/tipo de póliza."

/-- Married-regime parent-exclusion reason text. -/
def msgPadres : String :=
  "💔 No aplica porque el grupo es Casado y el parentesco es Padre/Madre."

/-- Single-regime spouse-detected reason text. -/
def msgTransicion : String :=
  "💔 Grupo indica Soltero, pero se detectó Cónyuge/Compañero(a). Se considera transición."

/-- Generic out-of-priority reason text. -/
def msgGenerico (modo : String) : String :=
  "💔 No aplica por regla del grupo \x27" ++ modo ++ "\x27. Parentesco fuera de prioridad."

/-- `str(parentesco_cell).lower()` of a row.  (The source's first loop
applies `.str.lower()` without `astype(str)`, which raises on non-string
cells; universal theorems therefore assume string kinship cells, and on
those this model is exact.) -/
def parLowerAt (rows : List Row) (i : ℕ) : String :=
  pyLower (pyStr (rows.getD i nilRow).parentesco)

/-- `str(grupo.iloc[0].get("Grupo", "")).lower()`: household regime text
from the group's first row; `""` when the column is absent, `"nan"` for a
NaN cell. -/
def grupoTexto (rows : List Row) (hasGrupo : Bool) (idxs : List ℕ) : String :=
  match idxs with
  | [] => ""
  | i :: _ => pyLower (pyStr (if hasGrupo then (rows.getD i nilRow).grupo else PyVal.str ""))

/-- Whether some member's lowered kinship contains a spouse marker. -/
def tieneConyuge (rows : List Row) (idxs : List ℕ) : Bool :=
  idxs.any (fun i =>
    containsSub "cónyuge" (parLowerAt rows i) || containsSub "conyuge" (parLowerAt rows i) ||
      containsSub "compañero" (parLowerAt rows i))

/-- Regime classification of the valuation stage: the mode label, the
priority keyword list and the household transition flag. -/
def modoGrupo (gt : String) (tiene : Bool) : String × List String × Bool :=
  if containsSub "soltero" gt ∧ tiene then
    ("Transición Soltero → Casado",
     ["titular", "cónyuge", "conyuge", "compañero", "hijo", "padre", "madre"], true)
  else if containsSub "casado" gt ∨ containsSub "cónyuge" gt ∨ containsSub "conyuge" gt ∨
      containsSub "compañero" gt then
    ("Casado", ["titular", "cónyuge", "conyuge", "compañero", "hijo"], false)
  else
    ("Soltero", ["titular", "padre", "madre", "hijo"], false)

/-- One keyword's inner loop in the valuation stage's first pass: group
rows (already filtered to match the keyword), in order; a row met while
fewer than 3 are collected joins `aplican`, a later one gets an over-cap
reason written (recorded as an event). -/
def primeraAux (modo : String) (acc : List ℕ × List (ℕ × String)) :
    List ℕ → List ℕ × List (ℕ × String)
  | [] => acc
  | i :: rest =>
    if acc.1.length < 3 then primeraAux modo (acc.1 ++ [i], acc.2) rest
    else primeraAux modo (acc.1, acc.2 ++ [(i, msgExcede modo)]) rest

/-- The valuation stage's first loop: scan the priority keywords in order
and, inside each, the matching group rows in order. -/
def primeraPasada (rows : List Row) (idxs : List ℕ) (prioridad : List String) (modo : String) :
    List ℕ × List (ℕ × String) :=
  prioridad.foldl
    (fun acc p => primeraAux modo acc (idxs.filter (fun i => containsSub p (parLowerAt rows i))))
    (([], []) : List ℕ × List (ℕ × String))

/-- The reason cell a row holds after the given (ordered) assignment events:
the last text written at that row, `""` if none was. -/
def lastMotivo (events : List (ℕ × String)) (i : ℕ) : String :=
  ((((events.filter (fun e => e.1 = i)).map (fun e => e.2)).getLast?).getD "")

/-- How many times the given events assign the row's reason. -/
def countMotivo (events : List (ℕ × String)) (i : ℕ) : ℕ :=
  (events.filter (fun e => e.1 = i)).length

/-- How many times an index occurs in an index list (it measures the
selection slots plus over-cap events one row consumes in the first loop). -/
def occCount (l : List ℕ) (i : ℕ) : ℕ :=
  (l.filter (fun j => j = i)).length

/-- `str(row.get("TIPO POLIZA", "")).strip().lower()`. -/
def tipoOf (cols : List String) (r : Row) : String :=
  pyLower (pyStrip (pyStr (if cols.contains "TIPO POLIZA" then r.tipoPoliza else PyVal.str "")))

/-- `str(row.get("PLAN", "")).strip()`. -/
def planOfB (cols : List String) (r : Row) : String :=
  pyStrip (pyStr (if cols.contains "PLAN" then r.plan else PyVal.str ""))

/-- The reason chosen by the second loop's else-branch case chain. -/
def segundaCase (gt modo parLow : String) (valor : ℚ) : String :=
  if valor = 0 then msgSinValor
  else if containsSub "casado" gt ∧ (containsSub "padre" parLow ∨ containsSub "madre" parLow) then
    msgPadres
  else if containsSub "soltero" gt ∧
      (containsSub "cónyuge" parLow ∨ containsSub "conyuge" parLow ∨
        containsSub "compañero" parLow) then
    msgTransicion
  else msgGenerico modo

/-- The valuation stage's second loop, as its reason-assignment events: a
selected row with a positive configured value gets the applies reason
(overwriting whatever the cell held); otherwise a reason is written only if
the cell — first-loop events plus the second loop's own earlier events —
is still empty. -/
def segundaAux (rows : List Row) (cols : List String) (gt modo : String)
    (aplican : List ℕ) (firstEv : List (ℕ × String)) (ev : List (ℕ × String)) :
    List ℕ → List (ℕ × String)
  | [] => ev
  | i :: rest =>
    let r := rows.getD i nilRow
    let plan := planOfB cols r
    let valor := valorBeneficio (tipoOf cols r) plan
    if aplican.contains i ∧ valor > 0 then
      segundaAux rows cols gt modo aplican firstEv (ev ++ [(i, msgAplica modo plan)]) rest
    else if lastMotivo (firstEv ++ ev) i = "" then
      segundaAux rows cols gt modo aplican firstEv
        (ev ++ [(i, segundaCase gt modo (parLowerAt rows i) valor)]) rest
    else segundaAux rows cols gt modo aplican firstEv ev rest

/-- The full second loop over a household's rows. -/
def segundaPasada (rows : List Row) (cols : List String) (gt modo : String)
    (aplican : List ℕ) (firstEv : List (ℕ × String)) (idxs : List ℕ) : List (ℕ × String) :=
  segundaAux rows cols gt modo aplican firstEv [] idxs

/-- The regime text the valuation stage reads for the household of `k`. -/
def benefTexto (rows : List Row) (cols : List String) (k : PyVal) : String :=
  grupoTexto rows (cols.contains "Grupo") (grpIdxs rows k)

/-- The regime classification (mode label, priority keywords, transition
flag) for the household of `k`. -/
def benefModo (rows : List Row) (cols : List String) (k : PyVal) :
    String × List String × Bool :=
  modoGrupo (benefTexto rows cols k) (tieneConyuge rows (grpIdxs rows k))

/-- The first pass (selection + over-cap events) for the household of `k`. -/
def benefPrimera (rows : List Row) (cols : List String) (k : PyVal) :
    List ℕ × List (ℕ × String) :=
  primeraPasada rows (grpIdxs rows k) (benefModo rows cols k).2.1 (benefModo rows cols k).1

/-- The indices the valuation stage selects in the household of `k`. -/
def benefAplican (rows : List Row) (cols : List String) (k : PyVal) : List ℕ :=
  (benefPrimera rows cols k).1

/-- All reason-assignment events of one household, in execution order. -/
def groupEvents (rows : List Row) (cols : List String) (k : PyVal) : List (ℕ × String) :=
  (benefPrimera rows cols k).2 ++
    segundaPasada rows cols (benefTexto rows cols k) (benefModo rows cols k).1
      (benefAplican rows cols k) (benefPrimera rows cols k).2 (grpIdxs rows k)

/-- Final value of one row under the valuation stage (defaults, then the
household's selection, value lookup and reason events). -/
def benefRowUpdate (rows : List Row) (cols : List String) (i : ℕ) (r : Row) : Row :=
  if r.titular = PyVal.none then benefDefaults r
  else
    let valor := valorBeneficio (tipoOf cols r) (planOfB cols r)
    let applies := (benefAplican rows cols r.titular).contains i ∧ valor > 0
    { benefDefaults r with
        transicionSC := PyVal.bool (benefModo rows cols r.titular).2.2,
        aplica := PyVal.bool applies,
        porcentaje := if applies then PyVal.num valor else PyVal.num 0,
        motivo := PyVal.str (lastMotivo (groupEvents rows cols r.titular) i) }

/-- `aplicar_politica_beneficios` from `data_processor_gui.py`: default the
four output columns, then — when the two required columns are present —
process every household. -/
def aplicar_politica_beneficios (df : DF) : DF :=
  if df.rows.isEmpty then { df with cols := addMissingBenefCols df.cols }
  else
    let cols2 := addMissingBenefCols df.cols
    if df.cols.contains "Identificacion_Titular" ∧ df.cols.contains "Parentesco" then
      let newRows := (List.range df.rows.length).map
        (fun i => benefRowUpdate df.rows df.cols i (df.rows.getD i nilRow))
      { cols := cols2, rows := newRows }
    else
      { cols := cols2, rows := df.rows.map benefDefaults }

/-- The distinct household keys, first-seen order, NaN dropped. -/
def benefKeys (rows : List Row) : List PyVal :=
  rows.foldl
    (fun acc r => if r.titular = PyVal.none ∨ acc.contains r.titular then acc else acc ++ [r.titular])
    []

/-- Every reason-assignment event of one valuation pass (all households). -/
def aplicarEvents (df : DF) : List (ℕ × String) :=
  (benefKeys df.rows).flatMap (fun k => groupEvents df.rows df.cols k)

/-! ### Concrete instances used by the claim theorems and witnesses -/

/-- A record on plan `"A"`, age 40. -/
def rowC4 : Row := { nilRow with plan := PyVal.str "A", edad := PyVal.num 40 }

/-- The spec's overlapping tariff configuration `[0,59]→{A:100}`,
`[30,99]→{A:200}`. -/
def tarC4 : TarifasCfg :=
  [("0,59", some [("A", PyVal.num 100)]), ("30,99", some [("A", PyVal.num 200)])]

/-- A one-row table with plan and age columns. -/
def dfC4 : DF := { cols := ["Plan", "Edad"], rows := [rowC4] }

/-- A record on a plan (`"B"`) that no tariff range prices. -/
def rowC7 : Row := { nilRow with plan := PyVal.str "B", edad := PyVal.num 40 }

/-- A one-row table whose record's plan has no configured price. -/
def dfC7 : DF := { cols := ["Plan", "Edad"], rows := [rowC7] }

/-- A tariff configuration whose every entry is malformed: a key that does
not split in two, an entry with no parseable plan price, an entry with an
unparseable bound, and a non-dict value. -/
def tarC10 : TarifasCfg :=
  [("bad-range", some [("A", PyVal.num 100)]),
   ("0,59", some [("", PyVal.num 5), ("A", PyVal.str "x")]),
   ("zz,5", some [("A", PyVal.num 1)]),
   ("1,2", Option.none)]

/-- A record-table row carrying only the eligibility-relevant cells. -/
def mkRowF (t e p : PyVal) : Row := { nilRow with titular := t, estado := e, parentesco := p }

/-- The three eligibility columns under their canonical labels. -/
def filCols : List String := ["Identificacion_Titular", "Estado_Civil", "Parentesco"]

/-- The spec's 5-member Married household:
kinships Spouse, Child, Child, Child, Father. -/
def dfC2 : DF :=
  { cols := filCols,
    rows := [ mkRowF (PyVal.str "H1") (PyVal.str "Casado") (PyVal.str "Cónyuge"),
              mkRowF (PyVal.str "H1") (PyVal.str "Casado") (PyVal.str "Hijo"),
              mkRowF (PyVal.str "H1") (PyVal.str "Casado") (PyVal.str "Hijo"),
              mkRowF (PyVal.str "H1") (PyVal.str "Casado") (PyVal.str "Hijo"),
              mkRowF (PyVal.str "H1") (PyVal.str "Casado") (PyVal.str "Padre") ] }

/-- A Married-regime household whose marital text carries only the
cohabitation marker (`compañero`), with a companion and three children. -/
def dfC2c : DF :=
  { cols := filCols,
    rows := [ mkRowF (PyVal.str "H1") (PyVal.str "unión con compañero") (PyVal.str "Compañero(a)"),
              mkRowF (PyVal.str "H1") (PyVal.str "unión con compañero") (PyVal.str "Hijo"),
              mkRowF (PyVal.str "H1") (PyVal.str "unión con compañero") (PyVal.str "Hijo"),
              mkRowF (PyVal.str "H1") (PyVal.str "unión con compañero") (PyVal.str "Hijo") ] }

/-- A table missing the marital-status column entirely. -/
def dfC6 : DF :=
  { cols := ["Identificacion_Titular", "Parentesco"],
    rows := [ mkRowF (PyVal.str "H1") (PyVal.str "Casado") (PyVal.str "Hijo") ] }

/-- A married household whose kinships differ from the literals only in
case or accents. -/
def dfC9 : DF :=
  { cols := filCols,
    rows := [ mkRowF (PyVal.str "H1") (PyVal.str "Casado") (PyVal.str "hijo"),
              mkRowF (PyVal.str "H1") (PyVal.str "Casado") (PyVal.str "CONYUGE"),
              mkRowF (PyVal.str "H1") (PyVal.str "Casado") (PyVal.str "padre") ] }

/-- A spouse record of a `casado` household whose `Grupo` text is empty:
eligible under the Eligibility Policy, on a plan with a configured benefit
value. -/
def rowC1 : Row := { nilRow with
  titular := PyVal.str "T1", estado := PyVal.str "casado",
  parentesco := PyVal.str "Cónyuge", grupo := PyVal.str "",
  tipoPoliza := PyVal.str "Salud Sura Clasica", plan := PyVal.str "266" }

/-- A one-record table carrying both the eligibility and the valuation
columns. -/
def dfC1 : DF :=
  { cols := ["Identificacion_Titular", "Estado_Civil", "Parentesco", "Grupo",
             "TIPO POLIZA", "PLAN"],
    rows := [rowC1] }

/-- A titular record of a `Casado` group on a configured plan. -/
def rowC1b : Row := { nilRow with
  titular := PyVal.str "T2", parentesco := PyVal.str "Titular",
  grupo := PyVal.str "Casado", tipoPoliza := PyVal.str "SALUD PARA TODOS",
  plan := PyVal.str "13" }

/-- A one-record valuation table whose record the stage selects. -/
def dfC1b : DF :=
  { cols := ["Identificacion_Titular", "Parentesco", "Grupo", "TIPO POLIZA", "PLAN"],
    rows := [rowC1b] }

/-- A valuation row of household `"T"` with the given kinship text, on a
plan with a configured value. -/
def rowC8 (p : String) : Row := { nilRow with
  titular := PyVal.str "T", parentesco := PyVal.str p,
  tipoPoliza := PyVal.str "Salud Sura Clasica", plan := PyVal.str "266" }

/-- A household in which one kinship text (`"padre hijo"`) matches two
different priority keywords of the Single regime. -/
def dfC8 : DF :=
  { cols := ["Identificacion_Titular", "Parentesco", "TIPO POLIZA", "PLAN"],
    rows := [rowC8 "padre hijo", rowC8 "titular", rowC8 "titular"] }

/-! ## Helper lemmas -/

/-- Indexing a mapped range: the `i`-th processed row is the update applied
at `i`. -/
theorem getD_range_map {α : Type} (n : ℕ) (f : ℕ → α) (i : ℕ) (d : α) (hi : i < n) :
    ((List.range n).map f).getD i d = f i := by
  rw [List.getD_eq_getElem _ _ (by simpa using hi)]
  simp

/-- The premium scan returns exactly the price of the first range containing
the age whose price map knows the plan. -/
theorem buscarPrima_eq_find (parsed : List (ℚ × ℚ × List (String × ℚ))) (edad : ℚ)
    (plan : String) :
    buscarPrima parsed edad plan =
      (parsed.find? (fun t =>
          decide (t.1 ≤ edad) && decide (edad ≤ t.2.1) && (dictGet t.2.2 plan).isSome)).bind
        (fun t => dictGet t.2.2 plan) := by
  induction parsed with
  | nil => rfl
  | cons hd tl ih =>
    obtain ⟨mn, mx, planes⟩ := hd
    by_cases h1 : mn ≤ edad ∧ edad ≤ mx
    · cases hp : dictGet planes plan with
      | none => simp [buscarPrima, h1, hp, List.find?_cons, ih]
      | some p => simp [buscarPrima, h1, hp, List.find?_cons]
    · rw [Decidable.not_and_iff_or_not] at h1
      rcases h1 with h1 | h1 <;>
        simp [buscarPrima, h1, List.find?_cons, ih]

/-- The premium cell written for one row, as a single expression. -/
theorem primaNeta_primaRowUpdate (parsed : List (ℚ × ℚ × List (String × ℚ))) (r : Row) :
    (primaRowUpdate parsed r).primaNeta =
      PyVal.num (if rowPlanStr r = "" then 0
        else match parse_numeric r.edad with
          | Option.none => 0
          | some e => (buscarPrima parsed e (pyCasefold (rowPlanStr r))).getD 0) := by
  simp only [primaRowUpdate]
  by_cases hplan : rowPlanStr r = ""
  · rw [if_pos hplan, if_pos hplan]
  · rw [if_neg hplan, if_neg hplan]
    obtain hed | ⟨e, hed⟩ : parse_numeric r.edad = Option.none ∨
        ∃ e, parse_numeric r.edad = some e := by
      cases parse_numeric r.edad
      · exact Or.inl rfl
      · exact Or.inr ⟨_, rfl⟩
    · simp only [hed]
    · obtain hbp | ⟨p, hbp⟩ : buscarPrima parsed e (pyCasefold (rowPlanStr r)) = Option.none ∨
          ∃ p, buscarPrima parsed e (pyCasefold (rowPlanStr r)) = some p := by
        cases buscarPrima parsed e (pyCasefold (rowPlanStr r))
        · exact Or.inl rfl
        · exact Or.inr ⟨_, rfl⟩
      · simp only [hed, hbp, Option.getD_none]
      · simp only [hed, hbp, Option.getD_some]

/-- Membership in a household's index list. -/
theorem mem_grpIdxs {rows : List Row} {k : PyVal} {i : ℕ} :
    i ∈ grpIdxs rows k ↔ i < rows.length ∧ (rows.getD i nilRow).titular = k := by
  simp [grpIdxs, List.mem_filter, List.mem_range]

/-- Household index lists are duplicate-free. -/
theorem nodup_grpIdxs (rows : List Row) (k : PyVal) : (grpIdxs rows k).Nodup :=
  (List.nodup_range _).filter _

/-- Membership through stable insertion. -/
theorem mem_insertByKey {key : ℕ → ℕ} {a j : ℕ} {l : List ℕ} :
    j ∈ insertByKey key a l ↔ j = a ∨ j ∈ l := by
  induction l with
  | nil => simp [insertByKey]
  | cons b t ih =>
    by_cases h : key a ≤ key b
    · simp [insertByKey, h]
    · simp only [insertByKey, if_neg h, List.mem_cons, ih]
      tauto

/-- The stable sort permutes nothing in or out. -/
theorem mem_sortByKey {key : ℕ → ℕ} {l : List ℕ} {j : ℕ} :
    j ∈ sortByKey key l ↔ j ∈ l := by
  induction l with
  | nil => simp [sortByKey]
  | cons b t ih => simp [sortByKey, mem_insertByKey, ih]

/-- Length bound for the cap-or-keep shape. -/
theorem length_capAux (l : List ℕ) (key : ℕ → ℕ) :
    (if l.length > 3 then (sortByKey key l).take 3 else l).length ≤ 3 := by
  split
  · rw [List.length_take]
    exact Nat.min_le_left _ _
  · omega

/-- Membership through the cap-or-keep shape. -/
theorem mem_capAux {l : List ℕ} {key : ℕ → ℕ} {i : ℕ}
    (h : i ∈ (if l.length > 3 then (sortByKey key l).take 3 else l)) : i ∈ l := by
  split at h
  · exact mem_sortByKey.mp (List.mem_of_mem_take h)
  · exact h

/-- The rank-and-cap step returns at most 3 indices. -/
theorem length_capBeneficiarios_le (rows : List Row) (idxs : List ℕ) (estado : String) :
    (capBeneficiarios rows idxs estado).length ≤ 3 := by
  simp only [capBeneficiarios]
  exact length_capAux _ _

/-- A capped index is a household member with valid kinship. -/
theorem mem_capBeneficiarios {rows : List Row} {idxs : List ℕ} {estado : String} {i : ℕ}
    (h : i ∈ capBeneficiarios rows idxs estado) :
    i ∈ idxs ∧ cellIn (rows.getD i nilRow).parentesco
      (if maritalMarker estado then validosCasado else validosSoltero) = true := by
  simp only [capBeneficiarios] at h
  have hm := mem_capAux h
  simpa using List.mem_filter.mp hm

/-- The processed rows of the eligibility stage once the three required
columns resolve. -/
theorem filtrar_rows_resolved (df : DF) (tc ec pc : String)
    (h1 : resolveColNorm df.cols "identificacion_titular" = some tc)
    (h2 : resolveColNorm df.cols "estado_civil" = some ec)
    (h3 : resolveColNorm df.cols "parentesco" = some pc)
    (hr : df.rows.isEmpty = false) :
    (filtrar_beneficiarios df).rows =
      (List.range df.rows.length).map
        (fun i => filtrarRowUpdate df.rows i (df.rows.getD i nilRow)) := by
  unfold filtrar_beneficiarios
  rw [if_neg (by simp [hr]), h1, h2, h3]

/-- With a required column missing, the eligibility stage stops after the
flag-column defaults. -/
theorem filtrar_eq_of_missing (df : DF) (hr : df.rows.isEmpty = false)
    (hmiss : resolveColNorm df.cols "identificacion_titular" = Option.none ∨
             resolveColNorm df.cols "estado_civil" = Option.none ∨
             resolveColNorm df.cols "parentesco" = Option.none) :
    filtrar_beneficiarios df = ensureFlagCols df := by
  unfold filtrar_beneficiarios
  rw [if_neg (by simp [hr])]
  rcases hmiss with h | h | h
  · rw [h]
  · rw [h]
    cases resolveColNorm df.cols "identificacion_titular" <;> rfl
  · rw [h]
    cases resolveColNorm df.cols "identificacion_titular"
    · rfl
    · cases resolveColNorm df.cols "estado_civil" <;> rfl

/-- The eligibility-flag column creation when that column is absent. -/
theorem ensureElegCol_of_absent (df : DF) (hE : "Elegible_Beneficio" ∉ df.cols) :
    ensureElegCol df =
      { cols := df.cols ++ ["Elegible_Beneficio"],
        rows := df.rows.map (fun r => { r with elegible := PyVal.bool false }) } := by
  unfold ensureElegCol
  rw [if_neg (by simpa using hE)]

/-- The transition column creation when that column is absent. -/
theorem ensureTransCol_of_absent (df : DF) (hT : "Transicion_Estado_Civil" ∉ df.cols) :
    ensureTransCol df =
      { cols := df.cols ++ ["Transicion_Estado_Civil"],
        rows := df.rows.map (fun r => { r with transicionEC := PyVal.str "" }) } := by
  unfold ensureTransCol
  rw [if_neg (by simpa using hT)]

/-- The flag-column creation on a table that has neither flag column. -/
theorem ensureFlagCols_of_absent (df : DF)
    (hE : "Elegible_Beneficio" ∉ df.cols)
    (hT : "Transicion_Estado_Civil" ∉ df.cols) :
    ensureFlagCols df =
      { cols := df.cols ++ ["Elegible_Beneficio", "Transicion_Estado_Civil"],
        rows := df.rows.map (fun r =>
          { r with elegible := PyVal.bool false, transicionEC := PyVal.str "" }) } := by
  have hT2 : "Transicion_Estado_Civil" ∉ df.cols ++ ["Elegible_Beneficio"] := by
    intro hc
    rcases List.mem_append.mp hc with h | h
    · exact hT h
    · exact absurd h (by decide)
  unfold ensureFlagCols
  rw [ensureElegCol_of_absent df hE, ensureTransCol_of_absent _ hT2]
  simp only [List.map_map, List.append_assoc]
  rfl

/-- The column-append step on labels that lack both flag columns. -/
theorem addMissingFlagCols_of_absent (cols : List String)
    (hE : "Elegible_Beneficio" ∉ cols)
    (hT : "Transicion_Estado_Civil" ∉ cols) :
    addMissingFlagCols cols = cols ++ ["Elegible_Beneficio", "Transicion_Estado_Civil"] := by
  have h1 : (if cols.contains "Elegible_Beneficio" = true then cols
      else cols ++ ["Elegible_Beneficio"]) = cols ++ ["Elegible_Beneficio"] :=
    if_neg (by simpa using hE)
  have hT2 : "Transicion_Estado_Civil" ∉ cols ++ ["Elegible_Beneficio"] := by
    intro hc
    rcases List.mem_append.mp hc with h | h
    · exact hT h
    · exact absurd h (by decide)
  simp only [addMissingFlagCols]
  rw [h1, if_neg (by simpa using hT2), List.append_assoc]
  rfl

/-! ## Claim theorems -/

/-- C3, as stated, is false on the code: on the input `"1,234.56"` the
parser's second candidate (periods removed, comma turned into a decimal
point) parses as `1.23456`, not `1234.56`. -/
theorem c3_counterexample :
    parse_numeric (PyVal.str "1,234.56") ≠ some (1234.56 : ℚ) ∧
    parse_numeric (PyVal.str "1,234.56") = some (1.23456 : ℚ) := by
  decide!

/-- C3 amended: `parse_numeric` returns `1234.56` for `"1.234,56"` and
`"1234.56"`, but `1.23456` for `"1,234.56"`. -/
theorem c3_parse_numeric_amended :
    parse_numeric (PyVal.str "1.234,56") = some (1234.56 : ℚ) ∧
    parse_numeric (PyVal.str "1234.56") = some (1234.56 : ℚ) ∧
    parse_numeric (PyVal.str "1,234.56") = some (1.23456 : ℚ) := by
  decide!

/-- C4: the tariff scan is first-match in table order — it returns the price
of the first parsed range whose inclusive bounds contain the age and whose
price map has a (casefolded) entry for the plan — and on the overlapping
configuration `[0,59]→{A:100}`, `[30,99]→{A:200}` a record of age 40 on
plan `"A"` is priced 100, not 200. -/
theorem c4_tariff_first_match :
    (∀ (parsed : List (ℚ × ℚ × List (String × ℚ))) (edad : ℚ) (plan : String),
        buscarPrima parsed edad plan =
          (parsed.find? (fun t =>
              decide (t.1 ≤ edad) && decide (edad ≤ t.2.1) && (dictGet t.2.2 plan).isSome)).bind
            (fun t => dictGet t.2.2 plan)) ∧
    ((asignar_prima_neta tarC4 dfC4).rows.getD 0 nilRow).primaNeta = PyVal.num 100 :=
  ⟨buscarPrima_eq_find, by decide!⟩

/-- C7: whenever the premium stage actually runs (nonempty table and
configuration, both columns resolved, at least one well-formed range), every
record's premium cell is written with a number, and that number is 0
whenever the plan is empty, the age is unparseable, or the scan prices
nothing — a null price never reaches the output. -/
theorem c7_premium_zero_normalization (tarifas : TarifasCfg) (df : DF) (i : ℕ)
    (pc ec : String)
    (hpc : findPlanCol df.cols = some pc) (hec : findEdadCol df.cols = some ec)
    (hr : df.rows ≠ []) (ht : tarifas ≠ [])
    (hp : tarifas.filterMap parseTarifaEntry ≠ []) (hi : i < df.rows.length) :
    ∃ q : ℚ,
      ((asignar_prima_neta tarifas df).rows.getD i nilRow).primaNeta = PyVal.num q ∧
      ((rowPlanStr (df.rows.getD i nilRow) = "" ∨
          parse_numeric (df.rows.getD i nilRow).edad = Option.none ∨
          (∀ e, parse_numeric (df.rows.getD i nilRow).edad = some e →
            buscarPrima (tarifas.filterMap parseTarifaEntry) e
              (pyCasefold (rowPlanStr (df.rows.getD i nilRow))) = Option.none)) → q = 0) := by
  have hrows : (asignar_prima_neta tarifas df).rows =
      df.rows.map (primaRowUpdate (tarifas.filterMap parseTarifaEntry)) := by
    unfold asignar_prima_neta
    rw [if_neg (by simpa using hr), if_neg (by simpa using ht), hpc, hec]
    rw [if_neg (by simpa using hp)]
  have hget : ((asignar_prima_neta tarifas df).rows.getD i nilRow) =
      primaRowUpdate (tarifas.filterMap parseTarifaEntry) (df.rows.getD i nilRow) := by
    rw [hrows, List.getD_eq_getElem _ _ (by simpa using hi), List.getElem_map,
      List.getD_eq_getElem _ _ hi]
  rw [hget, primaNeta_primaRowUpdate]
  by_cases hplan : rowPlanStr (df.rows.getD i nilRow) = ""
  · exact ⟨0, by rw [if_pos hplan], fun _ => rfl⟩
  · obtain hed | ⟨e, hed⟩ : parse_numeric (df.rows.getD i nilRow).edad = Option.none ∨
        ∃ e, parse_numeric (df.rows.getD i nilRow).edad = some e := by
      cases parse_numeric (df.rows.getD i nilRow).edad
      · exact Or.inl rfl
      · exact Or.inr ⟨_, rfl⟩
    · exact ⟨0, by rw [if_neg hplan]; simp only [hed], fun _ => rfl⟩
    · obtain hbp | ⟨p, hbp⟩ : buscarPrima (tarifas.filterMap parseTarifaEntry) e
          (pyCasefold (rowPlanStr (df.rows.getD i nilRow))) = Option.none ∨
          ∃ p, buscarPrima (tarifas.filterMap parseTarifaEntry) e
            (pyCasefold (rowPlanStr (df.rows.getD i nilRow))) = some p := by
        cases buscarPrima (tarifas.filterMap parseTarifaEntry) e
          (pyCasefold (rowPlanStr (df.rows.getD i nilRow)))
        · exact Or.inl rfl
        · exact Or.inr ⟨_, rfl⟩
      · refine ⟨0, ?_, fun _ => rfl⟩
        rw [if_neg hplan]
        simp only [hed, hbp, Option.getD_none]
      · refine ⟨p, ?_, fun hcase => ?_⟩
        · rw [if_neg hplan]
          simp only [hed, hbp, Option.getD_some]
        · rcases hcase with hc | hc | hc
          · exact absurd hc hplan
          · exact Option.noConfusion (hed.symm.trans hc)
          · exact Option.noConfusion (hbp.symm.trans (hc e hed))

/-- Witness for C7 at a concrete input: a record on unpriced plan `"B"`
receives premium 0 (not null). -/
theorem c7_witness :
    ∃ q : ℚ,
      ((asignar_prima_neta tarC4 dfC7).rows.getD 0 nilRow).primaNeta = PyVal.num q ∧
      ((rowPlanStr (dfC7.rows.getD 0 nilRow) = "" ∨
          parse_numeric (dfC7.rows.getD 0 nilRow).edad = Option.none ∨
          (∀ e, parse_numeric (dfC7.rows.getD 0 nilRow).edad = some e →
            buscarPrima (tarC4.filterMap parseTarifaEntry) e
              (pyCasefold (rowPlanStr (dfC7.rows.getD 0 nilRow))) = Option.none)) → q = 0) :=
  c7_premium_zero_normalization tarC4 dfC7 0 "Plan" "Edad" (by decide) (by decide)
    (by decide) (by decide) (by decide!) (by decide)

/-- C10: the premium stage leaves the table untouched — the premium column
is not even created — when the configuration is empty, every configured
entry is dropped as malformed, or the plan/age column is missing. -/
theorem c10_premium_stage_frame (tarifas : TarifasCfg) (df : DF)
    (h : tarifas = [] ∨ tarifas.filterMap parseTarifaEntry = [] ∨
         findPlanCol df.cols = Option.none ∨ findEdadCol df.cols = Option.none) :
    asignar_prima_neta tarifas df = df ∧ (asignar_prima_neta tarifas df).cols = df.cols := by
  have heq : asignar_prima_neta tarifas df = df := by
    unfold asignar_prima_neta
    by_cases hr : df.rows.isEmpty
    · rw [if_pos hr]
    · rw [if_neg hr]
      rcases h with h | h | h | h
      · rw [if_pos (by simp [h])]
      · by_cases ht : tarifas.isEmpty
        · rw [if_pos ht]
        · rw [if_neg ht]
          cases hpc : findPlanCol df.cols with
          | none => rfl
          | some pc =>
            cases hec : findEdadCol df.cols with
            | none => rfl
            | some ec => simp [h]
      · by_cases ht : tarifas.isEmpty
        · rw [if_pos ht]
        · rw [if_neg ht, h]
      · by_cases ht : tarifas.isEmpty
        · rw [if_pos ht]
        · rw [if_neg ht, h]
          cases findPlanCol df.cols <;> rfl
  exact ⟨heq, by rw [heq]⟩

/-- Witness for C10 at a concrete input: with every configured entry
malformed, the table (which has plan and age columns and no premium column)
is returned unchanged. -/
theorem c10_witness :
    asignar_prima_neta tarC10 dfC4 = dfC4 ∧ (asignar_prima_neta tarC10 dfC4).cols = dfC4.cols :=
  c10_premium_stage_frame tarC10 dfC4 (Or.inr (Or.inl (by decide!)))

/-- A string cell is `isin` a literal list only by exact equality. -/
theorem cellIn_str_eq_false {s : String} {l : List String} (h : s ∉ l) :
    cellIn (PyVal.str s) l = false := by
  simp only [cellIn]
  simpa using h

/-- The eligibility value written once the row's household is processed. -/
theorem elegible_out (df : DF) (tc ec pc : String)
    (h1 : resolveColNorm df.cols "identificacion_titular" = some tc)
    (h2 : resolveColNorm df.cols "estado_civil" = some ec)
    (h3 : resolveColNorm df.cols "parentesco" = some pc)
    (hr : df.rows.isEmpty = false)
    (j : ℕ) (hj : j < df.rows.length)
    (hk : (df.rows.getD j nilRow).titular ≠ PyVal.none) :
    ((filtrar_beneficiarios df).rows.getD j nilRow).elegible =
      filtrarElegVal df.rows (grpIdxs df.rows (df.rows.getD j nilRow).titular) j
        (df.rows.getD j nilRow).parentesco (df.rows.getD j nilRow).elegible := by
  rw [filtrar_rows_resolved df tc ec pc h1 h2 h3 hr, getD_range_map _ _ _ _ hj]
  unfold filtrarRowUpdate
  rw [if_neg hk]

/-- A boolean `contains` certificate yields membership. -/
theorem mem_of_contains_nat {l : List ℕ} {i : ℕ} (h : l.contains i = true) : i ∈ l := by
  simpa using h

/-- A row can only come out flagged eligible by being ranked and capped. -/
theorem filtrarElegVal_true_mem {rows : List Row} {idxs : List ℕ} {i : ℕ} {p v : PyVal}
    (hfill : fillElegible v = PyVal.bool false)
    (h : filtrarElegVal rows idxs i p v = PyVal.bool true) :
    i ∈ capBeneficiarios rows idxs (estadoOfGroup rows idxs) := by
  simp only [filtrarElegVal] at h
  by_cases h1 : cellIn p (if maritalMarker (estadoOfGroup rows idxs) = true then
      ["Padre", "Madre"] else []) = true
  · rw [if_pos h1] at h
    exact absurd h (by simp)
  · rw [if_neg h1] at h
    by_cases h2 : (capBeneficiarios rows idxs (estadoOfGroup rows idxs)).contains i = true
    · exact mem_of_contains_nat h2
    · rw [if_neg h2, hfill] at h
      exact absurd h (by simp)

/-- In a marker household an exact Father/Mother kinship is forced
ineligible. -/
theorem filtrarElegVal_excluded {rows : List Row} {idxs : List ℕ} {i : ℕ} {p v : PyVal}
    (hm : maritalMarker (estadoOfGroup rows idxs) = true)
    (hp : cellIn p ["Padre", "Madre"] = true) :
    filtrarElegVal rows idxs i p v = PyVal.bool false := by
  simp only [filtrarElegVal]
  have hexcl : (if maritalMarker (estadoOfGroup rows idxs) = true then ["Padre", "Madre"]
      else ([] : List String)) = ["Padre", "Madre"] := if_pos hm
  rw [hexcl, if_pos hp]

/-- A row that is neither excluded nor capped keeps its filled input flag. -/
theorem filtrarElegVal_default {rows : List Row} {idxs : List ℕ} {i : ℕ} {p v : PyVal}
    (hex : cellIn p (if maritalMarker (estadoOfGroup rows idxs) = true then
        ["Padre", "Madre"] else []) = false)
    (hnc : i ∉ capBeneficiarios rows idxs (estadoOfGroup rows idxs)) :
    filtrarElegVal rows idxs i p v = fillElegible v := by
  simp only [filtrarElegVal]
  rw [if_neg (by simp only [hex]; exact Bool.false_ne_true),
      if_neg (fun hc => hnc (mem_of_contains_nat hc))]

/-- C6: if any of the three required columns (household key, marital
status, kinship) is absent, the eligibility stage only creates/fills the
flag columns: every record's eligibility flag ends at the default `False`
and its transition field at the empty string.  (The model is a total
function on this path, mirroring that the source raises nothing here.) -/
theorem c6_missing_column_noop (df : DF)
    (hmiss : resolveColNorm df.cols "identificacion_titular" = Option.none ∨
             resolveColNorm df.cols "estado_civil" = Option.none ∨
             resolveColNorm df.cols "parentesco" = Option.none)
    (hE : "Elegible_Beneficio" ∉ df.cols)
    (hT : "Transicion_Estado_Civil" ∉ df.cols) :
    (filtrar_beneficiarios df).cols =
      df.cols ++ ["Elegible_Beneficio", "Transicion_Estado_Civil"] ∧
    (filtrar_beneficiarios df).rows.length = df.rows.length ∧
    ∀ i, i < df.rows.length →
      ((filtrar_beneficiarios df).rows.getD i nilRow).elegible = PyVal.bool false ∧
      ((filtrar_beneficiarios df).rows.getD i nilRow).transicionEC = PyVal.str "" := by
  by_cases hr : df.rows.isEmpty
  · have hrows : df.rows = [] := by simpa using hr
    have hfe : filtrar_beneficiarios df = { df with cols := addMissingFlagCols df.cols } := by
      unfold filtrar_beneficiarios
      rw [if_pos hr]
    rw [hfe]
    refine ⟨addMissingFlagCols_of_absent df.cols hE hT, rfl, ?_⟩
    intro i hi
    rw [hrows] at hi
    exact absurd hi (by simp)
  · have hre : df.rows.isEmpty = false := by simpa using hr
    rw [filtrar_eq_of_missing df hre hmiss, ensureFlagCols_of_absent df hE hT]
    refine ⟨rfl, by simp, ?_⟩
    intro i hi
    rw [List.getD_eq_getElem _ _ (by simpa using hi), List.getElem_map]
    exact ⟨rfl, rfl⟩

/-- Witness for C6: a table lacking the marital-status column comes out
with both flags at their defaults. -/
theorem c6_witness :
    (filtrar_beneficiarios dfC6).cols =
      dfC6.cols ++ ["Elegible_Beneficio", "Transicion_Estado_Civil"] ∧
    (filtrar_beneficiarios dfC6).rows.length = dfC6.rows.length ∧
    ∀ i, i < dfC6.rows.length →
      ((filtrar_beneficiarios dfC6).rows.getD i nilRow).elegible = PyVal.bool false ∧
      ((filtrar_beneficiarios dfC6).rows.getD i nilRow).transicionEC = PyVal.str "" :=
  c6_missing_column_noop dfC6 (Or.inr (Or.inl (by decide))) (by decide) (by decide)

/-- C5: a household whose first-record marital text carries a
marriage/cohabitation marker and which has a member with kinship exactly
Father or Mother gets `"Soltero→Casado"` written into the transition field
of every one of its records, with no assumption on eligibility outcomes. -/
theorem c5_transition_flag (df : DF) (tc ec pc : String)
    (h1 : resolveColNorm df.cols "identificacion_titular" = some tc)
    (h2 : resolveColNorm df.cols "estado_civil" = some ec)
    (h3 : resolveColNorm df.cols "parentesco" = some pc)
    (hr : df.rows.isEmpty = false)
    (i : ℕ) (hi : i < df.rows.length)
    (hk : (df.rows.getD i nilRow).titular ≠ PyVal.none)
    (hm : maritalMarker (estadoOfGroup df.rows
        (grpIdxs df.rows (df.rows.getD i nilRow).titular)) = true)
    (hp : tienePadres df.rows (grpIdxs df.rows (df.rows.getD i nilRow).titular) = true) :
    ((filtrar_beneficiarios df).rows.getD i nilRow).transicionEC =
      PyVal.str "Soltero→Casado" := by
  rw [filtrar_rows_resolved df tc ec pc h1 h2 h3 hr, getD_range_map _ _ _ _ hi]
  unfold filtrarRowUpdate
  rw [if_neg hk]
  show filtrarTransVal df.rows (grpIdxs df.rows (df.rows.getD i nilRow).titular)
      (df.rows.getD i nilRow).transicionEC = PyVal.str "Soltero→Casado"
  unfold filtrarTransVal
  rw [if_pos ⟨hm, hp⟩]

/-- Witness for C5: the Father row of the 5-member married household gets
the transition flag although it itself ends ineligible. -/
theorem c5_witness :
    ((filtrar_beneficiarios dfC2).rows.getD 4 nilRow).transicionEC =
      PyVal.str "Soltero→Casado" :=
  c5_transition_flag dfC2 "Identificacion_Titular" "Estado_Civil" "Parentesco"
    (by decide) (by decide) (by decide) (by decide) 4 (by decide) (by decide)
    (by decide) (by decide)

/-- C9: kinship membership is decided by exact, case- and accent-sensitive
equality with the literals: a record whose kinship string is not one of the
six literal forms is never marked eligible (the flag keeps its `fillna`
default), and a household none of whose kinship cells is exactly
`"Padre"`/`"Madre"` never receives the transition flag. -/
theorem c9_exact_kinship_match (df : DF) (tc ec pc : String)
    (h1 : resolveColNorm df.cols "identificacion_titular" = some tc)
    (h2 : resolveColNorm df.cols "estado_civil" = some ec)
    (h3 : resolveColNorm df.cols "parentesco" = some pc)
    (hr : df.rows.isEmpty = false)
    (i : ℕ) (hi : i < df.rows.length) (s : String)
    (hk : (df.rows.getD i nilRow).titular ≠ PyVal.none)
    (hpar : (df.rows.getD i nilRow).parentesco = PyVal.str s)
    (hs : s ∉ ["Cónyuge", "Compañero(a)", "Hijo", "Hija", "Padre", "Madre"])
    (hdefE : fillElegible (df.rows.getD i nilRow).elegible = PyVal.bool false)
    (hnp : ∀ j ∈ grpIdxs df.rows (df.rows.getD i nilRow).titular,
        cellIn (df.rows.getD j nilRow).parentesco ["Padre", "Madre"] = false)
    (hdefT : fillTransicion (df.rows.getD i nilRow).transicionEC = PyVal.str "") :
    ((filtrar_beneficiarios df).rows.getD i nilRow).elegible = PyVal.bool false ∧
    ((filtrar_beneficiarios df).rows.getD i nilRow).transicionEC = PyVal.str "" := by
  have hs6 : s ≠ "Cónyuge" ∧ s ≠ "Compañero(a)" ∧ s ≠ "Hijo" ∧ s ≠ "Hija" ∧
      s ≠ "Padre" ∧ s ≠ "Madre" := by simpa using hs
  rw [filtrar_rows_resolved df tc ec pc h1 h2 h3 hr, getD_range_map _ _ _ _ hi]
  unfold filtrarRowUpdate
  rw [if_neg hk]
  constructor
  · show filtrarElegVal df.rows (grpIdxs df.rows (df.rows.getD i nilRow).titular) i
        (df.rows.getD i nilRow).parentesco (df.rows.getD i nilRow).elegible = PyVal.bool false
    have hex : cellIn (df.rows.getD i nilRow).parentesco
        (if maritalMarker (estadoOfGroup df.rows
            (grpIdxs df.rows (df.rows.getD i nilRow).titular)) = true then
          ["Padre", "Madre"] else []) = false := by
      rw [hpar]
      split
      · exact cellIn_str_eq_false (by simp [hs6.2.2.2.2.1, hs6.2.2.2.2.2])
      · rfl
    have hnc : i ∉ capBeneficiarios df.rows
        (grpIdxs df.rows (df.rows.getD i nilRow).titular)
        (estadoOfGroup df.rows (grpIdxs df.rows (df.rows.getD i nilRow).titular)) := by
      intro hmem
      have hval := (mem_capBeneficiarios hmem).2
      rw [hpar] at hval
      revert hval
      split
      · intro hval
        have hm' : s ∈ validosCasado := by simpa [cellIn] using hval
        simp only [validosCasado, List.mem_cons, List.mem_singleton] at hm'
        rcases hm' with h | h | h | h <;> simp_all
      · intro hval
        have hm' : s ∈ validosSoltero := by simpa [cellIn] using hval
        simp only [validosSoltero, List.mem_cons, List.mem_singleton] at hm'
        rcases hm' with h | h | h | h <;> simp_all
    rw [filtrarElegVal_default hex hnc]
    exact hdefE
  · show filtrarTransVal df.rows (grpIdxs df.rows (df.rows.getD i nilRow).titular)
        (df.rows.getD i nilRow).transicionEC = PyVal.str ""
    unfold filtrarTransVal
    have hTP : tienePadres df.rows (grpIdxs df.rows (df.rows.getD i nilRow).titular) = false := by
      unfold tienePadres
      rw [List.any_eq_false]
      intro j hj
      rw [Bool.not_eq_true]
      exact hnp j hj
    rw [if_neg (fun hc => by rw [hTP] at hc; exact Bool.false_ne_true hc.2)]
    exact hdefT

/-- Witness for C9: in a married household with kinships `"hijo"`,
`"CONYUGE"`, `"padre"`, the `"hijo"` record is not eligible and the
lowercase `"padre"` is not counted for the transition. -/
theorem c9_witness :
    ((filtrar_beneficiarios dfC9).rows.getD 0 nilRow).elegible = PyVal.bool false ∧
    ((filtrar_beneficiarios dfC9).rows.getD 0 nilRow).transicionEC = PyVal.str "" :=
  c9_exact_kinship_match dfC9 "Identificacion_Titular" "Estado_Civil" "Parentesco"
    (by decide) (by decide) (by decide) (by decide) 0 (by decide) "hijo"
    (by decide) (by decide) (by decide) (by decide) (by decide) (by decide)

/-- C2 as stated is false: `dfC2c` is a Married-regime household (its text
carries the cohabitation marker), yet capping uses the Single priority list
because the text lacks `"casado"`, so the CompanionPartner — first in the
claimed Married priority — comes out ineligible while all three Children
are chosen. -/
theorem c2_counterexample :
    maritalMarker (estadoOfGroup dfC2c.rows (grpIdxs dfC2c.rows (PyVal.str "H1"))) = true ∧
    (dfC2c.rows.getD 0 nilRow).parentesco = PyVal.str "Compañero(a)" ∧
    ((filtrar_beneficiarios dfC2c).rows.getD 0 nilRow).elegible = PyVal.bool false ∧
    ((filtrar_beneficiarios dfC2c).rows.getD 3 nilRow).elegible = PyVal.bool true := by
  decide

/-- C2 amended: in every Married-regime household (with default input
flags) at most 3 members come out eligible and every member with kinship
exactly Father/Mother comes out ineligible; the Married priority list is
used for capping only when the text contains `"casado"` (a household
married only via `"compañero"` is ranked by the Single list, so the claim's
Spouse-first ordering holds only in the `"casado"` case); the 5-member
example household ends with exactly the Spouse and the first two Children
eligible. -/
theorem c2_married_cap_amended (df : DF) (tc ec pc : String)
    (h1 : resolveColNorm df.cols "identificacion_titular" = some tc)
    (h2 : resolveColNorm df.cols "estado_civil" = some ec)
    (h3 : resolveColNorm df.cols "parentesco" = some pc)
    (hr : df.rows.isEmpty = false) (k : PyVal) (hk : k ≠ PyVal.none)
    (hm : maritalMarker (estadoOfGroup df.rows (grpIdxs df.rows k)) = true)
    (hdef : ∀ j ∈ grpIdxs df.rows k,
        fillElegible ((df.rows.getD j nilRow).elegible) = PyVal.bool false) :
    ((grpIdxs df.rows k).filter (fun j =>
        decide (((filtrar_beneficiarios df).rows.getD j nilRow).elegible =
          PyVal.bool true))).length ≤ 3 ∧
    (∀ j ∈ grpIdxs df.rows k,
        cellIn ((df.rows.getD j nilRow).parentesco) ["Padre", "Madre"] = true →
        ((filtrar_beneficiarios df).rows.getD j nilRow).elegible = PyVal.bool false) ∧
    ((filtrar_beneficiarios dfC2).rows.map (fun r => r.elegible) =
      [PyVal.bool true, PyVal.bool true, PyVal.bool true,
       PyVal.bool false, PyVal.bool false]) := by
  have hout : ∀ j ∈ grpIdxs df.rows k,
      ((filtrar_beneficiarios df).rows.getD j nilRow).elegible =
        filtrarElegVal df.rows (grpIdxs df.rows k) j
          (df.rows.getD j nilRow).parentesco (df.rows.getD j nilRow).elegible := by
    intro j hj
    obtain ⟨hjl, hjk⟩ := mem_grpIdxs.mp hj
    have heq := elegible_out df tc ec pc h1 h2 h3 hr j hjl (by rw [hjk]; exact hk)
    rw [heq, hjk]
  refine ⟨?_, ?_, by decide⟩
  · have hsub : (grpIdxs df.rows k).filter (fun j =>
        decide (((filtrar_beneficiarios df).rows.getD j nilRow).elegible = PyVal.bool true)) ⊆
        capBeneficiarios df.rows (grpIdxs df.rows k)
          (estadoOfGroup df.rows (grpIdxs df.rows k)) := by
      intro j hjf
      obtain ⟨hj, hP⟩ := List.mem_filter.mp hjf
      have hPe := of_decide_eq_true hP
      rw [hout j hj] at hPe
      exact filtrarElegVal_true_mem (hdef j hj) hPe
    have hnod : ((grpIdxs df.rows k).filter (fun j =>
        decide (((filtrar_beneficiarios df).rows.getD j nilRow).elegible =
          PyVal.bool true))).Nodup :=
      (nodup_grpIdxs _ _).filter _
    exact le_trans (List.Subperm.length_le (List.subperm_of_subset hnod hsub))
      (length_capBeneficiarios_le _ _ _)
  · intro j hj hpm
    rw [hout j hj]
    exact filtrarElegVal_excluded hm hpm

/-- Witness for C2 (amended) at the 5-member married household. -/
theorem c2_witness :
    ((grpIdxs dfC2.rows (PyVal.str "H1")).filter (fun j =>
        decide (((filtrar_beneficiarios dfC2).rows.getD j nilRow).elegible =
          PyVal.bool true))).length ≤ 3 ∧
    (∀ j ∈ grpIdxs dfC2.rows (PyVal.str "H1"),
        cellIn ((dfC2.rows.getD j nilRow).parentesco) ["Padre", "Madre"] = true →
        ((filtrar_beneficiarios dfC2).rows.getD j nilRow).elegible = PyVal.bool false) ∧
    ((filtrar_beneficiarios dfC2).rows.map (fun r => r.elegible) =
      [PyVal.bool true, PyVal.bool true, PyVal.bool true,
       PyVal.bool false, PyVal.bool false]) :=
  c2_married_cap_amended dfC2 "Identificacion_Titular" "Estado_Civil" "Parentesco"
    (by decide) (by decide) (by decide) (by decide) (PyVal.str "H1") (by decide)
    (by decide) (by decide)

/-- A string with a nonempty left part is nonempty. -/
theorem append_ne_empty_left {s t : String} (h : s ≠ "") : s ++ t ≠ "" := by
  intro hc
  apply h
  have hl := congrArg String.length hc
  rw [String.length_append] at hl
  have h0 : ("" : String).length = 0 := rfl
  have hz : s.length = 0 := by omega
  cases s with
  | mk data =>
    cases data
    · rfl
    · simp [String.length] at hz

/-- The over-cap reason is never empty. -/
theorem msgExcede_ne (modo : String) : msgExcede modo ≠ "" :=
  append_ne_empty_left (append_ne_empty_left (by decide))

/-- The applies reason is never empty. -/
theorem msgAplica_ne (modo plan : String) : msgAplica modo plan ≠ "" :=
  append_ne_empty_left (append_ne_empty_left (append_ne_empty_left (append_ne_empty_left
    (by decide))))

/-- The generic reason is never empty. -/
theorem msgGenerico_ne (modo : String) : msgGenerico modo ≠ "" :=
  append_ne_empty_left (append_ne_empty_left (by decide))

/-- Every reason chosen by the second loop's case chain is nonempty. -/
theorem segundaCase_ne (gt modo parLow : String) (valor : ℚ) :
    segundaCase gt modo parLow valor ≠ "" := by
  unfold segundaCase
  split
  · decide
  · split
    · decide
    · split
      · decide
      · exact msgGenerico_ne modo

/-- No reason events at a row mean the empty reason. -/
theorem lastMotivo_eq_empty_of_not_mem {ev : List (ℕ × String)} {i : ℕ}
    (h : ∀ m, (i, m) ∉ ev) : lastMotivo ev i = "" := by
  unfold lastMotivo
  have hnil : ev.filter (fun e => decide (e.1 = i)) = [] := by
    rw [List.filter_eq_nil_iff]
    intro e he
    cases e with
    | mk a b =>
      simp only [decide_eq_true_eq]
      intro hab
      exact h b (hab ▸ he)
  rw [hnil]
  rfl

/-- A nonempty last reason implies some event at the row. -/
theorem exists_mem_of_lastMotivo_ne {ev : List (ℕ × String)} {i : ℕ}
    (h : lastMotivo ev i ≠ "") : ∃ m, (i, m) ∈ ev := by
  by_contra hno
  push_neg at hno
  exact h (lastMotivo_eq_empty_of_not_mem hno)

/-- With every event text nonempty, an event at the row makes the last
reason nonempty. -/
theorem lastMotivo_ne_of_mem {ev : List (ℕ × String)} {i : ℕ} {m : String}
    (hne : ∀ e ∈ ev, e.2 ≠ "") (hm : (i, m) ∈ ev) : lastMotivo ev i ≠ "" := by
  unfold lastMotivo
  have hmem : (i, m) ∈ ev.filter (fun e => decide (e.1 = i)) :=
    List.mem_filter.mpr ⟨hm, by simp⟩
  have hmapne : (ev.filter (fun e => decide (e.1 = i))).map (fun e => e.2) ≠ [] := by
    intro hc
    rw [List.map_eq_nil_iff] at hc
    rw [hc] at hmem
    exact absurd hmem (List.not_mem_nil _)
  rw [List.getLast?_eq_getLast _ hmapne]
  simp only [Option.getD_some]
  obtain ⟨e, hef, hee⟩ := List.mem_map.mp (List.getLast_mem hmapne)
  rw [← hee]
  exact hne e (List.mem_of_mem_filter hef)

/-- Appending an event at the row makes it the last reason. -/
theorem lastMotivo_concat_self (ev : List (ℕ × String)) (i : ℕ) (m : String) :
    lastMotivo (ev ++ [(i, m)]) i = m := by
  unfold lastMotivo
  rw [List.filter_append]
  simp [List.getLast?_concat]

/-- Appending an event at another row leaves the last reason unchanged. -/
theorem lastMotivo_concat_other {j i : ℕ} (ev : List (ℕ × String)) (m : String)
    (h : j ≠ i) : lastMotivo (ev ++ [(j, m)]) i = lastMotivo ev i := by
  unfold lastMotivo
  rw [List.filter_append]
  simp [h]

/-- Where first-pass events and selections can come from. -/
theorem primeraAux_spec (modo : String) :
    ∀ (l : List ℕ) (acc : List ℕ × List (ℕ × String)),
      (∀ e ∈ (primeraAux modo acc l).2, e ∈ acc.2 ∨ (e.1 ∈ l ∧ e.2 = msgExcede modo)) ∧
      (∀ j ∈ (primeraAux modo acc l).1, j ∈ acc.1 ∨ j ∈ l) := by
  intro l
  induction l with
  | nil => exact fun acc => ⟨fun e he => Or.inl he, fun j hj => Or.inl hj⟩
  | cons a t ih =>
    intro acc
    unfold primeraAux
    split
    · refine ⟨fun e he => ?_, fun j hj => ?_⟩
      · rcases (ih _).1 e he with h | h
        · exact Or.inl h
        · exact Or.inr ⟨List.mem_cons_of_mem _ h.1, h.2⟩
      · rcases (ih _).2 j hj with h | h
        · rcases List.mem_append.mp h with h' | h'
          · exact Or.inl h'
          · simp only [List.mem_singleton] at h'
            exact Or.inr (by simp [h'])
        · exact Or.inr (List.mem_cons_of_mem _ h)
    · refine ⟨fun e he => ?_, fun j hj => ?_⟩
      · rcases (ih _).1 e he with h | h
        · rcases List.mem_append.mp h with h' | h'
          · exact Or.inl h'
          · simp only [List.mem_singleton] at h'
            exact Or.inr (by simp [h'])
        · exact Or.inr ⟨List.mem_cons_of_mem _ h.1, h.2⟩
      · rcases (ih _).2 j hj with h | h
        · exact Or.inl h
        · exact Or.inr (List.mem_cons_of_mem _ h)

/-- Invariant of the first pass over the priority keywords. -/
theorem primeraPasada_inv (rows : List Row) (idxs : List ℕ) (modo : String) :
    ∀ (prioridad : List String) (acc : List ℕ × List (ℕ × String)),
      (∀ e ∈ acc.2, e.1 ∈ idxs ∧ e.2 = msgExcede modo) →
      (∀ j ∈ acc.1, j ∈ idxs) →
      (∀ e ∈ (prioridad.foldl (fun acc p =>
          primeraAux modo acc (idxs.filter (fun i => containsSub p (parLowerAt rows i)))) acc).2,
        e.1 ∈ idxs ∧ e.2 = msgExcede modo) ∧
      (∀ j ∈ (prioridad.foldl (fun acc p =>
          primeraAux modo acc (idxs.filter (fun i => containsSub p (parLowerAt rows i)))) acc).1,
        j ∈ idxs) := by
  intro prioridad
  induction prioridad with
  | nil => exact fun acc h2 h1 => ⟨h2, h1⟩
  | cons p ps ih =>
    intro acc h2 h1
    rw [List.foldl_cons]
    apply ih
    · intro e he
      rcases (primeraAux_spec modo _ _).1 e he with h | h
      · exact h2 e h
      · exact ⟨List.mem_of_mem_filter h.1, h.2⟩
    · intro j hj
      rcases (primeraAux_spec modo _ _).2 j hj with h | h
      · exact h1 j h
      · exact List.mem_of_mem_filter h

/-- Every first-pass event sits at a group row and carries the over-cap
reason. -/
theorem primeraPasada_events (rows : List Row) (idxs : List ℕ) (prioridad : List String)
    (modo : String) :
    ∀ e ∈ (primeraPasada rows idxs prioridad modo).2,
      e.1 ∈ idxs ∧ e.2 = msgExcede modo := by
  unfold primeraPasada
  exact (primeraPasada_inv rows idxs modo prioridad ([], []) (by simp) (by simp)).1

/-- The second loop only ever appends events. -/
theorem segundaAux_grows (rows : List Row) (cols : List String) (gt modo : String)
    (aplican : List ℕ) (firstEv : List (ℕ × String)) :
    ∀ (idxs : List ℕ) (ev : List (ℕ × String)),
      ev <+: segundaAux rows cols gt modo aplican firstEv ev idxs := by
  intro idxs
  induction idxs with
  | nil => exact fun ev => List.prefix_rfl
  | cons a t ih =>
    intro ev
    simp only [segundaAux]
    split
    · exact List.IsPrefix.trans (List.prefix_append _ _) (ih _)
    · split
      · exact List.IsPrefix.trans (List.prefix_append _ _) (ih _)
      · exact ih _

/-- Rows outside the processed list keep their last reason through the
second loop. -/
theorem segundaAux_frame (rows : List Row) (cols : List String) (gt modo : String)
    (aplican : List ℕ) (firstEv : List (ℕ × String)) :
    ∀ (idxs : List ℕ) (ev : List (ℕ × String)) (i : ℕ), i ∉ idxs →
      lastMotivo (firstEv ++ segundaAux rows cols gt modo aplican firstEv ev idxs) i =
        lastMotivo (firstEv ++ ev) i := by
  intro idxs
  induction idxs with
  | nil => exact fun ev i _ => rfl
  | cons a t ih =>
    intro ev i h
    have hai : a ≠ i := fun hc => h (hc ▸ List.mem_cons_self a t)
    have hit : i ∉ t := fun hc => h (List.mem_cons_of_mem _ hc)
    simp only [segundaAux]
    split
    · rw [ih _ i hit, ← List.append_assoc, lastMotivo_concat_other _ _ hai]
    · split
      · rw [ih _ i hit, ← List.append_assoc, lastMotivo_concat_other _ _ hai]
      · exact ih _ i hit

/-- Every processed row has some reason event after the second loop. -/
theorem segundaAux_covers (rows : List Row) (cols : List String) (gt modo : String)
    (aplican : List ℕ) (firstEv : List (ℕ × String)) :
    ∀ (idxs : List ℕ) (ev : List (ℕ × String)) (i : ℕ), i ∈ idxs →
      ∃ m, (i, m) ∈ firstEv ++ segundaAux rows cols gt modo aplican firstEv ev idxs := by
  intro idxs
  induction idxs with
  | nil => exact fun ev i h => absurd h (List.not_mem_nil i)
  | cons a t ih =>
    intro ev i h
    by_cases hai : i = a
    · subst hai
      simp only [segundaAux]
      split
      · refine ⟨msgAplica modo (planOfB cols (rows.getD i nilRow)), ?_⟩
        apply List.mem_append_right
        apply (segundaAux_grows rows cols gt modo aplican firstEv t _).subset
        exact List.mem_append_right _ (by simp)
      · split
        · refine ⟨segundaCase gt modo (parLowerAt rows i)
            (valorBeneficio (tipoOf cols (rows.getD i nilRow))
              (planOfB cols (rows.getD i nilRow))), ?_⟩
          apply List.mem_append_right
          apply (segundaAux_grows rows cols gt modo aplican firstEv t _).subset
          exact List.mem_append_right _ (by simp)
        · next hlm =>
          obtain ⟨m, hm⟩ := exists_mem_of_lastMotivo_ne hlm
          refine ⟨m, ?_⟩
          rcases List.mem_append.mp hm with h' | h'
          · exact List.mem_append_left _ h'
          · exact List.mem_append_right _
              ((segundaAux_grows rows cols gt modo aplican firstEv t _).subset h')
    · have hit : i ∈ t := by
        rcases List.mem_cons.mp h with h' | h'
        · exact absurd h' hai
        · exact h'
      simp only [segundaAux]
      split
      · exact ih _ i hit
      · split
        · exact ih _ i hit
        · exact ih _ i hit

/-- Every event the second loop appends sits at a processed row and
carries a nonempty reason. -/
theorem segundaAux_mem_spec (rows : List Row) (cols : List String) (gt modo : String)
    (aplican : List ℕ) (firstEv : List (ℕ × String)) :
    ∀ (idxs : List ℕ) (ev : List (ℕ × String)),
      ∀ e ∈ segundaAux rows cols gt modo aplican firstEv ev idxs,
        e ∈ ev ∨ (e.1 ∈ idxs ∧ e.2 ≠ "") := by
  intro idxs
  induction idxs with
  | nil => exact fun ev e he => Or.inl he
  | cons a t ih =>
    intro ev e he
    simp only [segundaAux] at he
    split at he
    · rcases ih _ e he with h | h
      · rcases List.mem_append.mp h with h' | h'
        · exact Or.inl h'
        · simp only [List.mem_singleton] at h'
          exact Or.inr ⟨by rw [h']; exact List.mem_cons_self _ _,
            by rw [h']; exact msgAplica_ne _ _⟩
      · exact Or.inr ⟨List.mem_cons_of_mem _ h.1, h.2⟩
    · split at he
      · rcases ih _ e he with h | h
        · rcases List.mem_append.mp h with h' | h'
          · exact Or.inl h'
          · simp only [List.mem_singleton] at h'
            exact Or.inr ⟨by rw [h']; exact List.mem_cons_self _ _,
              by rw [h']; exact segundaCase_ne _ _ _ _⟩
        · exact Or.inr ⟨List.mem_cons_of_mem _ h.1, h.2⟩
      · rcases ih _ e he with h | h
        · exact Or.inl h
        · exact Or.inr ⟨List.mem_cons_of_mem _ h.1, h.2⟩

/-- For a selected row with a positive configured value, the applies reason
is the row's final one. -/
theorem segundaAux_last_applies (rows : List Row) (cols : List String) (gt modo : String)
    (aplican : List ℕ) (firstEv : List (ℕ × String)) :
    ∀ (idxs : List ℕ) (ev : List (ℕ × String)) (i : ℕ),
      idxs.Nodup → i ∈ idxs →
      (aplican.contains i = true ∧
        0 < valorBeneficio (tipoOf cols (rows.getD i nilRow))
          (planOfB cols (rows.getD i nilRow))) →
      lastMotivo (firstEv ++ segundaAux rows cols gt modo aplican firstEv ev idxs) i =
        msgAplica modo (planOfB cols (rows.getD i nilRow)) := by
  intro idxs
  induction idxs with
  | nil => exact fun ev i _ h _ => absurd h (List.not_mem_nil i)
  | cons a t ih =>
    intro ev i hnd hmem happ
    obtain ⟨hnin, hndt⟩ := List.nodup_cons.mp hnd
    by_cases hai : i = a
    · subst hai
      simp only [segundaAux]
      rw [if_pos happ]
      rw [segundaAux_frame rows cols gt modo aplican firstEv t _ i hnin,
          ← List.append_assoc, lastMotivo_concat_self]
    · have hit : i ∈ t := by
        rcases List.mem_cons.mp hmem with h' | h'
        · exact absurd h' hai
        · exact h'
      simp only [segundaAux]
      split
      · exact ih _ i hndt hit happ
      · split
        · exact ih _ i hndt hit happ
        · exact ih _ i hndt hit happ

/-- The processed rows of the valuation stage under its column guard. -/
theorem aplicar_rows (df : DF) (hrne : df.rows.isEmpty = false)
    (hc1 : df.cols.contains "Identificacion_Titular" = true)
    (hc2 : df.cols.contains "Parentesco" = true) :
    (aplicar_politica_beneficios df).rows =
      (List.range df.rows.length).map
        (fun i => benefRowUpdate df.rows df.cols i (df.rows.getD i nilRow)) := by
  unfold aplicar_politica_beneficios
  rw [if_neg (by simp [hrne]), if_pos ⟨hc1, hc2⟩]

/-- The key-collection fold keeps earlier keys. -/
theorem benefKeys_aux_mono (k : PyVal) :
    ∀ (rows : List Row) (acc : List PyVal), k ∈ acc →
      k ∈ rows.foldl (fun acc r =>
        if r.titular = PyVal.none ∨ acc.contains r.titular then acc
        else acc ++ [r.titular]) acc := by
  intro rows
  induction rows with
  | nil => exact fun acc h => h
  | cons r t ih =>
    intro acc h
    rw [List.foldl_cons]
    apply ih
    split
    · exact h
    · exact List.mem_append_left _ h

/-- Any non-NaN key occurring in the rows appears among the household keys. -/
theorem mem_benefKeys {rows : List Row} {k : PyVal} (hk : k ≠ PyVal.none)
    (hocc : ∃ r ∈ rows, r.titular = k) : k ∈ benefKeys rows := by
  unfold benefKeys
  suffices hgen : ∀ (l : List Row) (acc : List PyVal), (∃ r ∈ l, r.titular = k) →
      k ∈ l.foldl (fun acc r =>
        if r.titular = PyVal.none ∨ acc.contains r.titular then acc
        else acc ++ [r.titular]) acc by
    exact hgen rows [] hocc
  intro l
  induction l with
  | nil =>
    intro acc h
    obtain ⟨r, hr, _⟩ := h
    exact absurd hr (List.not_mem_nil _)
  | cons r t ih =>
    intro acc h
    rw [List.foldl_cons]
    obtain ⟨r', hr', hrk⟩ := h
    rcases List.mem_cons.mp hr' with heq | hmem
    · subst heq
      by_cases hc : r'.titular = PyVal.none ∨ acc.contains r'.titular = true
      · rw [if_pos hc]
        rcases hc with h' | h'
        · exact absurd (hrk.symm.trans h') hk
        · exact benefKeys_aux_mono k t acc (hrk ▸ (by simpa using h'))
      · rw [if_neg hc]
        exact benefKeys_aux_mono k t _ (List.mem_append_right _ (by simp [hrk]))
    · exact ih _ ⟨r', hmem, hrk⟩

/-- An event at the row bounds the reason-assignment count from below. -/
theorem countMotivo_pos_of_mem {ev : List (ℕ × String)} {i : ℕ} {m : String}
    (h : (i, m) ∈ ev) : 1 ≤ countMotivo ev i := by
  unfold countMotivo
  exact List.length_pos_of_mem (List.mem_filter.mpr ⟨h, by simp⟩)

/-- Membership and `contains` agree on index lists. -/
theorem contains_nat_iff {l : List ℕ} {i : ℕ} : l.contains i = true ↔ i ∈ l := by
  simp

/-- Reason-count is additive over event concatenation. -/
theorem countMotivo_append (l1 l2 : List (ℕ × String)) (i : ℕ) :
    countMotivo (l1 ++ l2) i = countMotivo l1 i + countMotivo l2 i := by
  unfold countMotivo
  rw [List.filter_append, List.length_append]

/-- Reason-count of a single event. -/
theorem countMotivo_singleton (j : ℕ) (m : String) (i : ℕ) :
    countMotivo [(j, m)] i = if j = i then 1 else 0 := by
  unfold countMotivo
  by_cases h : j = i <;> simp [h]

/-- A row no event names has reason-count 0. -/
theorem countMotivo_eq_zero_of_not_mem {ev : List (ℕ × String)} {i : ℕ}
    (h : ∀ m, (i, m) ∉ ev) : countMotivo ev i = 0 := by
  unfold countMotivo
  have hnil : ev.filter (fun e => decide (e.1 = i)) = [] := by
    rw [List.filter_eq_nil_iff]
    intro e he
    cases e with
    | mk a b =>
      simp only [decide_eq_true_eq]
      intro hab
      exact h b (hab ▸ he)
  rw [hnil]
  rfl

/-- A positive reason-count exhibits an event at the row. -/
theorem exists_mem_of_countMotivo_pos {ev : List (ℕ × String)} {i : ℕ}
    (h : 1 ≤ countMotivo ev i) : ∃ m, (i, m) ∈ ev := by
  unfold countMotivo at h
  obtain ⟨e, he⟩ := List.exists_mem_of_length_pos h
  obtain ⟨hev, hpred⟩ := List.mem_filter.mp he
  cases e with
  | mk a b =>
    simp only [decide_eq_true_eq] at hpred
    exact ⟨b, hpred ▸ hev⟩

/-- A row with reason-count 0 has an empty last reason. -/
theorem lastMotivo_empty_of_count_zero {ev : List (ℕ × String)} {i : ℕ}
    (h : countMotivo ev i = 0) : lastMotivo ev i = "" := by
  apply lastMotivo_eq_empty_of_not_mem
  intro m hm
  have := countMotivo_pos_of_mem hm
  omega

/-- Occurrence counts are additive over concatenation. -/
theorem occCount_append (l1 l2 : List ℕ) (i : ℕ) :
    occCount (l1 ++ l2) i = occCount l1 i + occCount l2 i := by
  unfold occCount
  rw [List.filter_append, List.length_append]

/-- Occurrence count over the empty list. -/
theorem occCount_nil (i : ℕ) : occCount [] i = 0 := rfl

/-- Occurrence count over a cons. -/
theorem occCount_cons (a : ℕ) (t : List ℕ) (i : ℕ) :
    occCount (a :: t) i = (if a = i then 1 else 0) + occCount t i := by
  unfold occCount
  by_cases h : a = i
  · simp [List.filter_cons, h, Nat.add_comm]
  · simp [List.filter_cons, h]

/-- An index absent from a list has occurrence count 0. -/
theorem occCount_eq_zero_of_not_mem {l : List ℕ} {i : ℕ} (h : i ∉ l) :
    occCount l i = 0 := by
  unfold occCount
  have hnil : l.filter (fun j => decide (j = i)) = [] := by
    rw [List.filter_eq_nil_iff]
    intro j hj
    simp only [decide_eq_true_eq]
    intro hji
    exact h (hji ▸ hj)
  rw [hnil]
  rfl

/-- A present index has a positive occurrence count. -/
theorem occCount_pos_of_mem {l : List ℕ} {i : ℕ} (h : i ∈ l) :
    1 ≤ occCount l i := by
  unfold occCount
  exact List.length_pos_of_mem (List.mem_filter.mpr ⟨h, by simp⟩)

/-- In a duplicate-free list every index occurs at most once. -/
theorem occCount_le_one_of_nodup {l : List ℕ} (hnd : l.Nodup) (i : ℕ) :
    occCount l i ≤ 1 := by
  unfold occCount
  have hndf : (l.filter (fun j => decide (j = i))).Nodup := hnd.filter _
  have hall : ∀ j ∈ l.filter (fun j => decide (j = i)), j = i := by
    intro j hj
    have := (List.mem_filter.mp hj).2
    simpa using this
  cases hf : l.filter (fun j => decide (j = i)) with
  | nil => simp
  | cons a t =>
    cases t with
    | nil => simp
    | cons b t2 =>
      exfalso
      rw [hf] at hndf hall
      obtain ⟨hna, _⟩ := List.nodup_cons.mp hndf
      have ha : a = i := hall a (List.mem_cons_self _ _)
      have hb : b = i := hall b (List.mem_cons_of_mem _ (List.mem_cons_self _ _))
      have hab : a = b := ha.trans hb.symm
      exact hna (by rw [hab]; exact List.mem_cons_self _ _)

/-- Each first-loop encounter of a row consumes exactly one slot: either
the row joins the selection or it gets an over-cap event. -/
theorem primeraAux_count (modo : String) (i : ℕ) :
    ∀ (l : List ℕ) (acc : List ℕ × List (ℕ × String)),
      occCount (primeraAux modo acc l).1 i + countMotivo (primeraAux modo acc l).2 i =
        occCount acc.1 i + countMotivo acc.2 i + occCount l i := by
  intro l
  induction l with
  | nil =>
    intro acc
    simp [primeraAux, occCount]
  | cons a t ih =>
    intro acc
    unfold primeraAux
    split
    · rw [ih]
      simp only [occCount_append, occCount_cons, occCount_nil]
      omega
    · rw [ih]
      simp only [countMotivo_append, countMotivo_singleton, occCount_cons]
      omega

/-- Over the whole first loop a row's selections plus over-cap events are
bounded by the number of priority keywords its kinship text matches. -/
theorem primeraPasada_count_le (rows : List Row) (idxs : List ℕ) (prioridad : List String)
    (modo : String) (i : ℕ) (hnd : idxs.Nodup) :
    occCount (primeraPasada rows idxs prioridad modo).1 i +
      countMotivo (primeraPasada rows idxs prioridad modo).2 i ≤
    (prioridad.filter (fun p => containsSub p (parLowerAt rows i))).length := by
  have hgen : ∀ (pr : List String) (acc : List ℕ × List (ℕ × String)),
      occCount (pr.foldl (fun acc p =>
          primeraAux modo acc (idxs.filter (fun j => containsSub p (parLowerAt rows j)))) acc).1 i +
        countMotivo (pr.foldl (fun acc p =>
          primeraAux modo acc (idxs.filter (fun j => containsSub p (parLowerAt rows j)))) acc).2 i ≤
      occCount acc.1 i + countMotivo acc.2 i +
        (pr.filter (fun p => containsSub p (parLowerAt rows i))).length := by
    intro pr
    induction pr with
    | nil => intro acc; simp
    | cons p ps ih =>
      intro acc
      simp only [List.foldl_cons]
      refine le_trans (ih _) ?_
      rw [primeraAux_count]
      have hb2 : occCount (idxs.filter (fun j => containsSub p (parLowerAt rows j))) i ≤
          if containsSub p (parLowerAt rows i) = true then 1 else 0 := by
        by_cases hp : containsSub p (parLowerAt rows i) = true
        · rw [if_pos hp]
          exact occCount_le_one_of_nodup (hnd.filter _) i
        · rw [if_neg hp]
          have hni : i ∉ idxs.filter (fun j => containsSub p (parLowerAt rows j)) := by
            intro hcon
            exact hp ((List.mem_filter.mp hcon).2)
          rw [occCount_eq_zero_of_not_mem hni]
      rw [List.filter_cons]
      by_cases hp : containsSub p (parLowerAt rows i) = true
      · rw [if_pos hp] at hb2
        rw [if_pos hp]
        simp only [List.length_cons]
        omega
      · rw [if_neg hp] at hb2
        rw [if_neg hp]
        omega
  have h := hgen prioridad ([], [])
  unfold primeraPasada
  refine le_trans h ?_
  simp [occCount, countMotivo]

/-- Rows the second loop never visits keep their reason-count. -/
theorem segundaAux_count_frame (rows : List Row) (cols : List String) (gt modo : String)
    (aplican : List ℕ) (firstEv : List (ℕ × String)) :
    ∀ (idxs : List ℕ) (ev : List (ℕ × String)) (i : ℕ), i ∉ idxs →
      countMotivo (segundaAux rows cols gt modo aplican firstEv ev idxs) i =
        countMotivo ev i := by
  intro idxs
  induction idxs with
  | nil => exact fun ev i _ => rfl
  | cons a t ih =>
    intro ev i h
    have hai : a ≠ i := fun hc => h (hc ▸ List.mem_cons_self a t)
    have hit : i ∉ t := fun hc => h (List.mem_cons_of_mem a hc)
    simp only [segundaAux]
    split
    · rw [ih _ i hit, countMotivo_append, countMotivo_singleton, if_neg hai, Nat.add_zero]
    · split
      · rw [ih _ i hit, countMotivo_append, countMotivo_singleton, if_neg hai, Nat.add_zero]
      · exact ih _ i hit

/-- The second loop's visit of a row appends exactly one event — the
applies reason, or a case reason when the cell is still empty — and
otherwise none; visits of other rows never touch the row's count. -/
theorem segundaAux_count_visit (rows : List Row) (cols : List String) (gt modo : String)
    (aplican : List ℕ) (firstEv : List (ℕ × String)) :
    ∀ (idxs : List ℕ) (ev : List (ℕ × String)) (i : ℕ), idxs.Nodup → i ∈ idxs →
      countMotivo (segundaAux rows cols gt modo aplican firstEv ev idxs) i =
        countMotivo ev i +
          (if aplican.contains i = true ∧
              0 < valorBeneficio (tipoOf cols (rows.getD i nilRow))
                (planOfB cols (rows.getD i nilRow)) then 1
           else if lastMotivo (firstEv ++ ev) i = "" then 1 else 0) := by
  intro idxs
  induction idxs with
  | nil => exact fun ev i _ h => absurd h (List.not_mem_nil i)
  | cons a t ih =>
    intro ev i hnd hmem
    obtain ⟨hnin, hndt⟩ := List.nodup_cons.mp hnd
    by_cases hai : i = a
    · subst hai
      simp only [segundaAux]
      by_cases hap : aplican.contains i = true ∧
          0 < valorBeneficio (tipoOf cols (rows.getD i nilRow))
            (planOfB cols (rows.getD i nilRow))
      · rw [if_pos hap, if_pos hap,
            segundaAux_count_frame rows cols gt modo aplican firstEv t _ i hnin,
            countMotivo_append, countMotivo_singleton, if_pos rfl]
      · rw [if_neg hap, if_neg hap]
        by_cases hlm : lastMotivo (firstEv ++ ev) i = ""
        · rw [if_pos hlm, if_pos hlm,
              segundaAux_count_frame rows cols gt modo aplican firstEv t _ i hnin,
              countMotivo_append, countMotivo_singleton, if_pos rfl]
        · rw [if_neg hlm, if_neg hlm,
              segundaAux_count_frame rows cols gt modo aplican firstEv t _ i hnin,
              Nat.add_zero]
    · have hit : i ∈ t := by
        rcases List.mem_cons.mp hmem with h' | h'
        · exact absurd h' hai
        · exact h'
      have hia : a ≠ i := fun hc => hai hc.symm
      simp only [segundaAux]
      split
      · rw [ih _ i hndt hit, countMotivo_append, countMotivo_singleton, if_neg hia,
            Nat.add_zero, ← List.append_assoc, lastMotivo_concat_other _ _ hia]
      · split
        · rw [ih _ i hndt hit, countMotivo_append, countMotivo_singleton, if_neg hia,
              Nat.add_zero, ← List.append_assoc, lastMotivo_concat_other _ _ hia]
        · exact ih _ i hndt hit

/-- The household keys are pairwise distinct. -/
theorem benefKeys_nodup (rows : List Row) : (benefKeys rows).Nodup := by
  unfold benefKeys
  suffices hgen : ∀ (l : List Row) (acc : List PyVal), acc.Nodup →
      (l.foldl (fun acc r =>
        if r.titular = PyVal.none ∨ acc.contains r.titular then acc
        else acc ++ [r.titular]) acc).Nodup by
    exact hgen rows [] List.nodup_nil
  intro l
  induction l with
  | nil => exact fun acc h => h
  | cons r t ih =>
    intro acc h
    rw [List.foldl_cons]
    apply ih
    by_cases hc : r.titular = PyVal.none ∨ acc.contains r.titular = true
    · rw [if_pos hc]
      exact h
    · rw [if_neg hc]
      rw [List.nodup_append]
      refine ⟨h, List.nodup_singleton _, ?_⟩
      intro x hx hx2
      simp only [List.mem_singleton] at hx2
      subst hx2
      exact hc (Or.inr (by simpa using hx))

/-- Every reason event of a household names one of its own rows. -/
theorem groupEvents_fst_mem (rows : List Row) (cols : List String) (k : PyVal) :
    ∀ e ∈ groupEvents rows cols k, e.1 ∈ grpIdxs rows k := by
  intro e he
  unfold groupEvents at he
  rcases List.mem_append.mp he with h | h
  · unfold benefPrimera at h
    exact (primeraPasada_events _ _ _ _ e h).1
  · unfold segundaPasada at h
    rcases segundaAux_mem_spec rows cols _ _ _ _ _ [] e h with h' | h'
    · exact absurd h' (List.not_mem_nil e)
    · exact h'.1

/-- Reason-count distributes over the per-household event concatenation. -/
theorem countMotivo_flatMap (i : ℕ) (f : PyVal → List (ℕ × String)) :
    ∀ (keys : List PyVal),
      countMotivo (keys.flatMap f) i = (keys.map (fun k => countMotivo (f k) i)).sum := by
  intro keys
  induction keys with
  | nil => rfl
  | cons a t ih =>
    rw [List.flatMap_cons, countMotivo_append, ih, List.map_cons, List.sum_cons]

/-- Summing a per-key count over distinct keys of which only one is
nonzero reduces to that key's count. -/
theorem sum_map_eq_single {α : Type} (g : α → ℕ) (k : α) :
    ∀ (keys : List α), keys.Nodup → k ∈ keys →
      (∀ k2 ∈ keys, k2 ≠ k → g k2 = 0) →
      (keys.map g).sum = g k := by
  intro keys
  induction keys with
  | nil => exact fun _ h _ => absurd h (List.not_mem_nil k)
  | cons a t ih =>
    intro hnd hk hz
    obtain ⟨hna, hndt⟩ := List.nodup_cons.mp hnd
    rw [List.map_cons, List.sum_cons]
    rcases List.mem_cons.mp hk with heq | hmem
    · have hsum : (t.map g).sum = 0 := by
        apply List.sum_eq_zero
        intro x hx
        obtain ⟨k2, hk2, hgk2⟩ := List.mem_map.mp hx
        rw [← hgk2]
        apply hz k2 (List.mem_cons_of_mem a hk2)
        intro hc
        rw [hc, heq] at hk2
        exact hna hk2
      rw [hsum, ← heq, Nat.add_zero]
    · have hga : g a = 0 :=
        hz a (List.mem_cons_self a t) (fun hc => hna (by rw [hc]; exact hmem))
      rw [hga, Nat.zero_add]
      exact ih hndt hmem (fun k2 h2 => hz k2 (List.mem_cons_of_mem a h2))

/-- A row whose kinship text matches at most one priority keyword of its
household gets its reason assigned exactly once by that household. -/
theorem groupEvents_count_one (rows : List Row) (cols : List String) (k : PyVal) (i : ℕ)
    (hmem : i ∈ grpIdxs rows k)
    (hK : ((benefModo rows cols k).2.1.filter
        (fun p => containsSub p (parLowerAt rows i))).length ≤ 1) :
    countMotivo (groupEvents rows cols k) i = 1 := by
  have hb : occCount (benefPrimera rows cols k).1 i +
      countMotivo (benefPrimera rows cols k).2 i ≤ 1 := by
    refine le_trans ?_ hK
    unfold benefPrimera
    exact primeraPasada_count_le rows (grpIdxs rows k) (benefModo rows cols k).2.1
      (benefModo rows cols k).1 i (nodup_grpIdxs rows k)
  unfold groupEvents segundaPasada
  rw [countMotivo_append,
      segundaAux_count_visit rows cols (benefTexto rows cols k) (benefModo rows cols k).1
        (benefAplican rows cols k) (benefPrimera rows cols k).2 (grpIdxs rows k) [] i
        (nodup_grpIdxs rows k) hmem]
  have hc0 : countMotivo ([] : List (ℕ × String)) i = 0 := rfl
  rw [hc0, List.append_nil]
  by_cases hap : (benefAplican rows cols k).contains i = true ∧
      0 < valorBeneficio (tipoOf cols (rows.getD i nilRow)) (planOfB cols (rows.getD i nilRow))
  · rw [if_pos hap]
    have h1 : 1 ≤ occCount (benefPrimera rows cols k).1 i := by
      apply occCount_pos_of_mem
      have h2 := hap.1
      unfold benefAplican at h2
      exact contains_nat_iff.mp h2
    omega
  · rw [if_neg hap]
    by_cases hlm : lastMotivo (benefPrimera rows cols k).2 i = ""
    · rw [if_pos hlm]
      have hfe0 : countMotivo (benefPrimera rows cols k).2 i = 0 := by
        by_contra hne
        have hpos : 1 ≤ countMotivo (benefPrimera rows cols k).2 i := by omega
        obtain ⟨m, hm⟩ := exists_mem_of_countMotivo_pos hpos
        have hne2 : lastMotivo (benefPrimera rows cols k).2 i ≠ "" := by
          apply lastMotivo_ne_of_mem ?_ hm
          intro e he
          unfold benefPrimera at he
          rw [(primeraPasada_events _ _ _ _ e he).2]
          exact msgExcede_ne _
        exact hne2 hlm
      omega
    · rw [if_neg hlm]
      have hfe1 : 1 ≤ countMotivo (benefPrimera rows cols k).2 i := by
        by_contra h0
        have h00 : countMotivo (benefPrimera rows cols k).2 i = 0 := by omega
        exact hlm (lastMotivo_empty_of_count_zero h00)
      omega

/-- C8 as stated is false: in `dfC8` the record whose kinship text
`"padre hijo"` matches two priority keywords is assigned a reason twice —
first the over-cap reason, then the applies reason overwrites it. -/
theorem c8_counterexample :
    countMotivo (aplicarEvents dfC8) 0 = 2 ∧
    (aplicarEvents dfC8).take 1 = [(0, msgExcede "Soltero")] ∧
    ((aplicar_politica_beneficios dfC8).rows.getD 0 nilRow).motivo =
      PyVal.str (msgAplica "Soltero" "266") ∧
    msgAplica "Soltero" "266" ≠ msgExcede "Soltero" := by decide!

/-- C8 amended: every record of a processed household has its reason
assigned at least once and ends with a nonempty reason, and a record whose
kinship text matches at most one keyword of its household's priority list
has its reason assigned exactly once; a record matching two different
priority keywords can be assigned twice — an over-cap reason written in
the first loop is overwritten by the applies reason in the second. -/
theorem c8_reason_assignment_amended (df : DF) (i : ℕ) (hi : i < df.rows.length)
    (hrne : df.rows.isEmpty = false)
    (hc1 : df.cols.contains "Identificacion_Titular" = true)
    (hc2 : df.cols.contains "Parentesco" = true)
    (hk : (df.rows.getD i nilRow).titular ≠ PyVal.none) :
    (1 ≤ countMotivo (aplicarEvents df) i ∧
     ∃ m, ((aplicar_politica_beneficios df).rows.getD i nilRow).motivo = PyVal.str m ∧
       m ≠ "") ∧
    (((benefModo df.rows df.cols (df.rows.getD i nilRow).titular).2.1.filter
        (fun p => containsSub p (parLowerAt df.rows i))).length ≤ 1 →
      countMotivo (aplicarEvents df) i = 1) := by
  have hmemg : i ∈ grpIdxs df.rows (df.rows.getD i nilRow).titular :=
    mem_grpIdxs.mpr ⟨hi, rfl⟩
  have hkin : (df.rows.getD i nilRow).titular ∈ benefKeys df.rows := by
    apply mem_benefKeys hk
    refine ⟨df.rows.getD i nilRow, ?_, rfl⟩
    rw [List.getD_eq_getElem _ _ hi]
    exact List.getElem_mem hi
  have hcov : ∃ m, (i, m) ∈ groupEvents df.rows df.cols (df.rows.getD i nilRow).titular := by
    unfold groupEvents segundaPasada
    exact segundaAux_covers df.rows df.cols _ _ _ _ _ [] i hmemg
  have hallne : ∀ e ∈ groupEvents df.rows df.cols (df.rows.getD i nilRow).titular,
      e.2 ≠ "" := by
    intro e he
    unfold groupEvents at he
    rcases List.mem_append.mp he with h | h
    · unfold benefPrimera at h
      rw [(primeraPasada_events _ _ _ _ e h).2]
      exact msgExcede_ne _
    · unfold segundaPasada at h
      rcases segundaAux_mem_spec df.rows df.cols _ _ _ _ _ [] e h with h' | h'
      · exact absurd h' (List.not_mem_nil e)
      · exact h'.2
  refine ⟨⟨?_, ?_⟩, ?_⟩
  · obtain ⟨m, hm⟩ := hcov
    exact countMotivo_pos_of_mem (List.mem_flatMap.mpr ⟨_, hkin, hm⟩)
  · have hrow : (aplicar_politica_beneficios df).rows.getD i nilRow =
        benefRowUpdate df.rows df.cols i (df.rows.getD i nilRow) := by
      rw [aplicar_rows df hrne hc1 hc2, getD_range_map _ _ _ _ hi]
    rw [hrow]
    unfold benefRowUpdate
    rw [if_neg hk]
    refine ⟨lastMotivo (groupEvents df.rows df.cols (df.rows.getD i nilRow).titular) i,
      rfl, ?_⟩
    obtain ⟨m, hm⟩ := hcov
    exact lastMotivo_ne_of_mem hallne hm
  · intro hKle
    have hz : ∀ k2 ∈ benefKeys df.rows, k2 ≠ (df.rows.getD i nilRow).titular →
        countMotivo (groupEvents df.rows df.cols k2) i = 0 := by
      intro k2 _ hne
      apply countMotivo_eq_zero_of_not_mem
      intro m hm
      have h1 : (i, m).1 ∈ grpIdxs df.rows k2 := groupEvents_fst_mem df.rows df.cols k2 _ hm
      have h2 := (mem_grpIdxs.mp h1).2
      exact hne h2.symm
    calc countMotivo (aplicarEvents df) i
        = ((benefKeys df.rows).map
            (fun k2 => countMotivo (groupEvents df.rows df.cols k2) i)).sum := by
          unfold aplicarEvents
          exact countMotivo_flatMap i _ (benefKeys df.rows)
      _ = countMotivo (groupEvents df.rows df.cols (df.rows.getD i nilRow).titular) i :=
          sum_map_eq_single _ _ (benefKeys df.rows) (benefKeys_nodup df.rows) hkin hz
      _ = 1 := groupEvents_count_one df.rows df.cols _ i hmemg hKle

/-- Witness for C8 (amended) at a concrete single-keyword record. -/
theorem c8_witness :
    ((1 ≤ countMotivo (aplicarEvents dfC8) 1 ∧
      ∃ m, ((aplicar_politica_beneficios dfC8).rows.getD 1 nilRow).motivo = PyVal.str m ∧
        m ≠ "") ∧
     countMotivo (aplicarEvents dfC8) 1 = 1) :=
  ⟨(c8_reason_assignment_amended dfC8 1 (by decide) (by decide) (by decide) (by decide)
      (by decide)).1,
   (c8_reason_assignment_amended dfC8 1 (by decide) (by decide) (by decide) (by decide)
      (by decide)).2 (by decide)⟩

/-- C1 as stated is false: the spouse record of `dfC1` is marked eligible
by the Eligibility Policy and its (policy type, plan) pair has a configured
value of 89000 > 0, yet Benefit Valuation — which recomputes its own
selection from the `Grupo` text and substring kinship matching, ignoring
the `Elegible_Beneficio` flag — sets `Aplica_Beneficio` to false. -/
theorem c1_counterexample :
    ((filtrar_beneficiarios dfC1).rows.getD 0 nilRow).elegible = PyVal.bool true ∧
    0 < valorBeneficio
        (tipoOf (filtrar_beneficiarios dfC1).cols ((filtrar_beneficiarios dfC1).rows.getD 0 nilRow))
        (planOfB (filtrar_beneficiarios dfC1).cols ((filtrar_beneficiarios dfC1).rows.getD 0 nilRow)) ∧
    ((aplicar_politica_beneficios (filtrar_beneficiarios dfC1)).rows.getD 0 nilRow).aplica =
      PyVal.bool false := by decide!

/-- C1 amended: the benefit-applies flag is true exactly when the record is
in the valuation stage's own selection (priority keywords over the `Grupo`
text with substring kinship matching, capped at 3) AND the configured value
for its (policy type, plan) is positive; in that case the amount is the
configured value and the reason is the applies message with the stage's
regime label and plan; otherwise the flag is false and the amount 0.  The
Eligibility Policy's flag plays no role. -/
theorem c1_benefit_applies_amended (df : DF) (i : ℕ) (hi : i < df.rows.length)
    (hrne : df.rows.isEmpty = false)
    (hc1 : df.cols.contains "Identificacion_Titular" = true)
    (hc2 : df.cols.contains "Parentesco" = true)
    (hk : (df.rows.getD i nilRow).titular ≠ PyVal.none) :
    (((aplicar_politica_beneficios df).rows.getD i nilRow).aplica = PyVal.bool true ↔
      (i ∈ benefAplican df.rows df.cols (df.rows.getD i nilRow).titular ∧
        0 < valorBeneficio (tipoOf df.cols (df.rows.getD i nilRow))
          (planOfB df.cols (df.rows.getD i nilRow)))) ∧
    ((i ∈ benefAplican df.rows df.cols (df.rows.getD i nilRow).titular ∧
        0 < valorBeneficio (tipoOf df.cols (df.rows.getD i nilRow))
          (planOfB df.cols (df.rows.getD i nilRow))) →
      ((aplicar_politica_beneficios df).rows.getD i nilRow).porcentaje =
        PyVal.num (valorBeneficio (tipoOf df.cols (df.rows.getD i nilRow))
          (planOfB df.cols (df.rows.getD i nilRow))) ∧
      ((aplicar_politica_beneficios df).rows.getD i nilRow).motivo =
        PyVal.str (msgAplica (benefModo df.rows df.cols (df.rows.getD i nilRow).titular).1
          (planOfB df.cols (df.rows.getD i nilRow)))) ∧
    (¬ (i ∈ benefAplican df.rows df.cols (df.rows.getD i nilRow).titular ∧
        0 < valorBeneficio (tipoOf df.cols (df.rows.getD i nilRow))
          (planOfB df.cols (df.rows.getD i nilRow))) →
      ((aplicar_politica_beneficios df).rows.getD i nilRow).aplica = PyVal.bool false ∧
      ((aplicar_politica_beneficios df).rows.getD i nilRow).porcentaje = PyVal.num 0) := by
  have hrow : (aplicar_politica_beneficios df).rows.getD i nilRow =
      benefRowUpdate df.rows df.cols i (df.rows.getD i nilRow) := by
    rw [aplicar_rows df hrne hc1 hc2, getD_range_map _ _ _ _ hi]
  have hiff : ((benefAplican df.rows df.cols (df.rows.getD i nilRow).titular).contains i
        = true ∧
      0 < valorBeneficio (tipoOf df.cols (df.rows.getD i nilRow))
        (planOfB df.cols (df.rows.getD i nilRow))) ↔
      (i ∈ benefAplican df.rows df.cols (df.rows.getD i nilRow).titular ∧
        0 < valorBeneficio (tipoOf df.cols (df.rows.getD i nilRow))
          (planOfB df.cols (df.rows.getD i nilRow))) :=
    and_congr contains_nat_iff Iff.rfl
  rw [hrow]
  unfold benefRowUpdate
  rw [if_neg hk]
  by_cases hap : (benefAplican df.rows df.cols (df.rows.getD i nilRow).titular).contains i
        = true ∧
      0 < valorBeneficio (tipoOf df.cols (df.rows.getD i nilRow))
        (planOfB df.cols (df.rows.getD i nilRow))
  · refine ⟨?_, fun _ => ⟨?_, ?_⟩, fun hno => absurd (hiff.mp hap) hno⟩
    · constructor
      · exact fun _ => hiff.mp hap
      · intro _
        show PyVal.bool (decide _) = PyVal.bool true
        rw [decide_eq_true hap]
    · show (if _ then PyVal.num _ else PyVal.num 0) = _
      rw [if_pos hap]
    · show PyVal.str (lastMotivo (groupEvents df.rows df.cols
          (df.rows.getD i nilRow).titular) i) = _
      unfold groupEvents segundaPasada
      rw [segundaAux_last_applies df.rows df.cols _ _ _ _ (grpIdxs df.rows
          (df.rows.getD i nilRow).titular) [] i
        (nodup_grpIdxs _ _) (mem_grpIdxs.mpr ⟨hi, rfl⟩) hap]
  · have hapf : ¬ (i ∈ benefAplican df.rows df.cols (df.rows.getD i nilRow).titular ∧
        0 < valorBeneficio (tipoOf df.cols (df.rows.getD i nilRow))
          (planOfB df.cols (df.rows.getD i nilRow))) := fun hc => hap (hiff.mpr hc)
    refine ⟨?_, fun hc => absurd hc hapf, fun _ => ⟨?_, ?_⟩⟩
    · constructor
      · intro hb
        exfalso
        apply hap
        have : decide ((benefAplican df.rows df.cols (df.rows.getD i nilRow).titular).contains i
              = true ∧
            0 < valorBeneficio (tipoOf df.cols (df.rows.getD i nilRow))
              (planOfB df.cols (df.rows.getD i nilRow))) = true := by
          have hb' : PyVal.bool (decide _) = PyVal.bool true := hb
          exact PyVal.bool.injEq _ _ ▸ (by injection hb')
        exact of_decide_eq_true this
      · exact fun hc => absurd (hiff.mpr hc) hap
    · show PyVal.bool (decide _) = PyVal.bool false
      rw [decide_eq_false hap]
    · show (if _ then PyVal.num _ else PyVal.num 0) = _
      rw [if_neg hap]

/-- Witness for C1 (amended): the titular of a `Casado` group on configured
plan 13 is selected, applies, and gets value 57000 with the applies
reason. -/
theorem c1_witness :
    (((aplicar_politica_beneficios dfC1b).rows.getD 0 nilRow).aplica = PyVal.bool true ↔
      (0 ∈ benefAplican dfC1b.rows dfC1b.cols (dfC1b.rows.getD 0 nilRow).titular ∧
        0 < valorBeneficio (tipoOf dfC1b.cols (dfC1b.rows.getD 0 nilRow))
          (planOfB dfC1b.cols (dfC1b.rows.getD 0 nilRow)))) ∧
    ((0 ∈ benefAplican dfC1b.rows dfC1b.cols (dfC1b.rows.getD 0 nilRow).titular ∧
        0 < valorBeneficio (tipoOf dfC1b.cols (dfC1b.rows.getD 0 nilRow))
          (planOfB dfC1b.cols (dfC1b.rows.getD 0 nilRow))) →
      ((aplicar_politica_beneficios dfC1b).rows.getD 0 nilRow).porcentaje =
        PyVal.num (valorBeneficio (tipoOf dfC1b.cols (dfC1b.rows.getD 0 nilRow))
          (planOfB dfC1b.cols (dfC1b.rows.getD 0 nilRow))) ∧
      ((aplicar_politica_beneficios dfC1b).rows.getD 0 nilRow).motivo =
        PyVal.str (msgAplica (benefModo dfC1b.rows dfC1b.cols
            (dfC1b.rows.getD 0 nilRow).titular).1
          (planOfB dfC1b.cols (dfC1b.rows.getD 0 nilRow)))) ∧
    (¬ (0 ∈ benefAplican dfC1b.rows dfC1b.cols (dfC1b.rows.getD 0 nilRow).titular ∧
        0 < valorBeneficio (tipoOf dfC1b.cols (dfC1b.rows.getD 0 nilRow))
          (planOfB dfC1b.cols (dfC1b.rows.getD 0 nilRow))) →
      ((aplicar_politica_beneficios dfC1b).rows.getD 0 nilRow).aplica = PyVal.bool false ∧
      ((aplicar_politica_beneficios dfC1b).rows.getD 0 nilRow).porcentaje = PyVal.num 0) :=
  c1_benefit_applies_amended dfC1b 0 (by decide) (by decide) (by decide) (by decide)
    (by decide)

end Planillas
